import Mathlib

/-!
# karmadactl cluster-routing adapters

A shallow embedding of the four command adapters of `pkg/karmadactl`
(`attach`, `api-resources`, `api-versions`, `explain`).

Each adapter embeds one kubectl options object (the wrapped unit) together with
a `Cluster` string, and offers `Complete`, `Validate` and `Run`.  The wrapped
units and the connection factory are collaborators that live outside the
package; they appear here as records of functions over an abstract unit state
`U`, an abstract `cmdutil.Factory` value type `CF` and an abstract cobra
command type `Cmd`.  Every call an adapter makes to a collaborator is written
to a call list, so that "is invoked", "is not invoked" and "exactly once" are
statements about that list.
-/

namespace Karmadactl

/-! ## Go values shared by the four packages -/

/-- Go `error` value that is not nil, identified by the text its `Error()` method yields. -/
structure GoError where
  Error : String
deriving DecidableEq, Repr

/-- Go `fmt.Errorf` applied to a format without verbs and without operands:
the error text is the format itself. -/
def Errorf (format : String) : GoError := ⟨format⟩

/-- Go builtin `len` on a string: the number of bytes of its UTF-8 encoding. -/
def len (s : String) : Nat := s.utf8ByteSize

/-- One call from an adapter to a collaborator.
`FactoryForMemberCluster` is the registry lookup on the factory, the other three
are the methods of the wrapped unit (`Run` stands for its run step, which is
named `Run`, `RunAPIResources` or `RunAPIVersions` depending on the unit). -/
inductive Call (CF Cmd : Type) where
  | FactoryForMemberCluster (clusterName : String)
  | Complete (f : CF) (cmd : Cmd) (args : List String)
  | Validate
  | Run
deriving DecidableEq, Repr

/-- Recognises a registry lookup in a call list. -/
def Call.isFactoryForMemberCluster {CF Cmd : Type} : Call CF Cmd → Bool
  | .FactoryForMemberCluster _ => true
  | _ => false

/-- Recognises a call of the wrapped unit's `Complete` in a call list. -/
def Call.isComplete {CF Cmd : Type} : Call CF Cmd → Bool
  | .Complete _ _ _ => true
  | _ => false

/-- The cluster names looked up in the registry, in call order. -/
def lookups {CF Cmd : Type} : List (Call CF Cmd) → List String
  | [] => []
  | .FactoryForMemberCluster clusterName :: cs => clusterName :: lookups cs
  | _ :: cs => lookups cs

/-- The factories handed to the wrapped unit's `Complete`, in call order. -/
def completeFactories {CF Cmd : Type} : List (Call CF Cmd) → List CF
  | [] => []
  | .Complete f _ _ :: cs => f :: completeFactories cs
  | _ :: cs => completeFactories cs

/-- What a method with a pointer receiver leaves behind: the receiver after the
call, the collaborator calls it made (in order) and the returned `error`
(`none` is Go's nil). -/
structure Outcome (O CF Cmd : Type) where
  o : O
  calls : List (Call CF Cmd)
  err : Option GoError

/-- The `util.Factory` interface as far as the adapters use it: the value itself
seen as a `cmdutil.Factory` (what the assignment `explainFactory = f` stores),
and the method `FactoryForMemberCluster`, which returns a member factory or an
error. -/
structure Factory (CF : Type) where
  toCmdFactory : CF
  FactoryForMemberCluster : String → Except GoError CF

/-! ## The wrapped kubectl units

Each method takes the unit state and returns the state after the call with the
returned `error`. -/

/-- Methods of `kubectlattach.AttachOptions`. -/
structure AttachOptionsMethods (U CF Cmd : Type) where
  Complete : U → CF → Cmd → List String → U × Option GoError
  Validate : U → U × Option GoError
  Run : U → U × Option GoError

/-- Methods of `kubectlapiresources.APIResourceOptions`. -/
structure APIResourceOptionsMethods (U CF Cmd : Type) where
  Complete : U → CF → Cmd → List String → U × Option GoError
  Validate : U → U × Option GoError
  RunAPIResources : U → U × Option GoError

/-- Methods of `kubectlapiresources.APIVersionsOptions`; it has no `Validate`. -/
structure APIVersionsOptionsMethods (U CF Cmd : Type) where
  Complete : U → CF → Cmd → List String → U × Option GoError
  RunAPIVersions : U → U × Option GoError

/-- Methods of `kubectlexplain.ExplainOptions`. -/
structure ExplainOptionsMethods (U CF Cmd : Type) where
  Complete : U → CF → Cmd → List String → U × Option GoError
  Validate : U → U × Option GoError
  Run : U → U × Option GoError

/-! ## package attach -/

/-- `CommandAttachOptions`: the embedded `*kubectlattach.AttachOptions` (never nil
once `NewCmdAttach` has built it) and the `Cluster` flag. -/
structure CommandAttachOptions (U : Type) where
  AttachOptions : U
  Cluster : String

/-- `(*CommandAttachOptions).Complete`, attach.go lines 91-100. -/
def CommandAttachOptions.Complete {U CF Cmd : Type} (k : AttachOptionsMethods U CF Cmd)
    (o : CommandAttachOptions U) (f : Factory CF) (cmd : Cmd) (args : List String) :
    Outcome (CommandAttachOptions U) CF Cmd :=
  if len o.Cluster == 0 then
    ⟨o, [], some (Errorf "must specify a cluster")⟩
  else
    match f.FactoryForMemberCluster o.Cluster with
    | .error err => ⟨o, [.FactoryForMemberCluster o.Cluster], some err⟩
    | .ok memberFactory =>
      let r := k.Complete o.AttachOptions memberFactory cmd args
      ⟨{ o with AttachOptions := r.1 },
        [.FactoryForMemberCluster o.Cluster, .Complete memberFactory cmd args], r.2⟩

/-- `(*CommandAttachOptions).Validate`, attach.go lines 103-105. -/
def CommandAttachOptions.Validate {U CF Cmd : Type} (k : AttachOptionsMethods U CF Cmd)
    (o : CommandAttachOptions U) : Outcome (CommandAttachOptions U) CF Cmd :=
  let r := k.Validate o.AttachOptions
  ⟨{ o with AttachOptions := r.1 }, [.Validate], r.2⟩

/-- `(*CommandAttachOptions).Run`, attach.go lines 108-110. -/
def CommandAttachOptions.Run {U CF Cmd : Type} (k : AttachOptionsMethods U CF Cmd)
    (o : CommandAttachOptions U) : Outcome (CommandAttachOptions U) CF Cmd :=
  let r := k.Run o.AttachOptions
  ⟨{ o with AttachOptions := r.1 }, [.Run], r.2⟩

/-! ## package apiresources: api-resources -/

/-- `CommandAPIResourcesOptions`: the embedded `*kubectlapiresources.APIResourceOptions`
and the `Cluster` flag. -/
structure CommandAPIResourcesOptions (U : Type) where
  APIResourceOptions : U
  Cluster : String

/-- `(*CommandAPIResourcesOptions).Complete`, apiresources.go lines 74-87. -/
def CommandAPIResourcesOptions.Complete {U CF Cmd : Type}
    (k : APIResourceOptionsMethods U CF Cmd) (o : CommandAPIResourcesOptions U)
    (f : Factory CF) (cmd : Cmd) (args : List String) :
    Outcome (CommandAPIResourcesOptions U) CF Cmd :=
  if len o.Cluster == 0 then
    let explainFactory := f.toCmdFactory
    let r := k.Complete o.APIResourceOptions explainFactory cmd args
    ⟨{ o with APIResourceOptions := r.1 }, [.Complete explainFactory cmd args], r.2⟩
  else
    match f.FactoryForMemberCluster o.Cluster with
    | .error err => ⟨o, [.FactoryForMemberCluster o.Cluster], some err⟩
    | .ok memberFactory =>
      let explainFactory := memberFactory
      let r := k.Complete o.APIResourceOptions explainFactory cmd args
      ⟨{ o with APIResourceOptions := r.1 },
        [.FactoryForMemberCluster o.Cluster, .Complete explainFactory cmd args], r.2⟩

/-- `(*CommandAPIResourcesOptions).Validate`, apiresources.go lines 90-92. -/
def CommandAPIResourcesOptions.Validate {U CF Cmd : Type}
    (k : APIResourceOptionsMethods U CF Cmd) (o : CommandAPIResourcesOptions U) :
    Outcome (CommandAPIResourcesOptions U) CF Cmd :=
  let r := k.Validate o.APIResourceOptions
  ⟨{ o with APIResourceOptions := r.1 }, [.Validate], r.2⟩

/-- `(*CommandAPIResourcesOptions).Run`, apiresources.go lines 95-97. -/
def CommandAPIResourcesOptions.Run {U CF Cmd : Type}
    (k : APIResourceOptionsMethods U CF Cmd) (o : CommandAPIResourcesOptions U) :
    Outcome (CommandAPIResourcesOptions U) CF Cmd :=
  let r := k.RunAPIResources o.APIResourceOptions
  ⟨{ o with APIResourceOptions := r.1 }, [.Run], r.2⟩

/-- The method `RunAPIResources` that `CommandAPIResourcesOptions` gets by
embedding `*APIResourceOptions`: Go promotes the embedded method, so
`o.RunAPIResources()` is `o.APIResourceOptions.RunAPIResources()`. -/
def CommandAPIResourcesOptions.RunAPIResources {U CF Cmd : Type}
    (k : APIResourceOptionsMethods U CF Cmd) (o : CommandAPIResourcesOptions U) :
    Outcome (CommandAPIResourcesOptions U) CF Cmd :=
  let r := k.RunAPIResources o.APIResourceOptions
  ⟨{ o with APIResourceOptions := r.1 }, [.Run], r.2⟩

/-! ## package apiresources: api-versions -/

/-- `CommandAPIVersionsOptions`: the embedded `*kubectlapiresources.APIVersionsOptions`
and the `Cluster` flag. -/
structure CommandAPIVersionsOptions (U : Type) where
  APIVersionsOptions : U
  Cluster : String

/-- `(*CommandAPIVersionsOptions).Complete`, apiversions.go lines 48-61. -/
def CommandAPIVersionsOptions.Complete {U CF Cmd : Type}
    (k : APIVersionsOptionsMethods U CF Cmd) (o : CommandAPIVersionsOptions U)
    (f : Factory CF) (cmd : Cmd) (args : List String) :
    Outcome (CommandAPIVersionsOptions U) CF Cmd :=
  if len o.Cluster == 0 then
    let explainFactory := f.toCmdFactory
    let r := k.Complete o.APIVersionsOptions explainFactory cmd args
    ⟨{ o with APIVersionsOptions := r.1 }, [.Complete explainFactory cmd args], r.2⟩
  else
    match f.FactoryForMemberCluster o.Cluster with
    | .error err => ⟨o, [.FactoryForMemberCluster o.Cluster], some err⟩
    | .ok memberFactory =>
      let explainFactory := memberFactory
      let r := k.Complete o.APIVersionsOptions explainFactory cmd args
      ⟨{ o with APIVersionsOptions := r.1 },
        [.FactoryForMemberCluster o.Cluster, .Complete explainFactory cmd args], r.2⟩

/-- `(*CommandAPIVersionsOptions).Run`, apiversions.go lines 64-66. -/
def CommandAPIVersionsOptions.Run {U CF Cmd : Type}
    (k : APIVersionsOptionsMethods U CF Cmd) (o : CommandAPIVersionsOptions U) :
    Outcome (CommandAPIVersionsOptions U) CF Cmd :=
  let r := k.RunAPIVersions o.APIVersionsOptions
  ⟨{ o with APIVersionsOptions := r.1 }, [.Run], r.2⟩

/-- The method `RunAPIVersions` that `CommandAPIVersionsOptions` gets by embedding
`*APIVersionsOptions` (method promotion, as for `RunAPIResources`). -/
def CommandAPIVersionsOptions.RunAPIVersions {U CF Cmd : Type}
    (k : APIVersionsOptionsMethods U CF Cmd) (o : CommandAPIVersionsOptions U) :
    Outcome (CommandAPIVersionsOptions U) CF Cmd :=
  let r := k.RunAPIVersions o.APIVersionsOptions
  ⟨{ o with APIVersionsOptions := r.1 }, [.Run], r.2⟩

/-! ## package explain -/

/-- `CommandExplainOptions`: the embedded `*kubectlexplain.ExplainOptions` and the
`Cluster` flag. -/
structure CommandExplainOptions (U : Type) where
  ExplainOptions : U
  Cluster : String

/-- `(*CommandExplainOptions).Complete`, explain.go lines 100-113. -/
def CommandExplainOptions.Complete {U CF Cmd : Type} (k : ExplainOptionsMethods U CF Cmd)
    (o : CommandExplainOptions U) (f : Factory CF) (cmd : Cmd) (args : List String) :
    Outcome (CommandExplainOptions U) CF Cmd :=
  if len o.Cluster == 0 then
    let explainFactory := f.toCmdFactory
    let r := k.Complete o.ExplainOptions explainFactory cmd args
    ⟨{ o with ExplainOptions := r.1 }, [.Complete explainFactory cmd args], r.2⟩
  else
    match f.FactoryForMemberCluster o.Cluster with
    | .error err => ⟨o, [.FactoryForMemberCluster o.Cluster], some err⟩
    | .ok memberFactory =>
      let explainFactory := memberFactory
      let r := k.Complete o.ExplainOptions explainFactory cmd args
      ⟨{ o with ExplainOptions := r.1 },
        [.FactoryForMemberCluster o.Cluster, .Complete explainFactory cmd args], r.2⟩

/-- `(*CommandExplainOptions).Validate`, explain.go lines 116-118. -/
def CommandExplainOptions.Validate {U CF Cmd : Type} (k : ExplainOptionsMethods U CF Cmd)
    (o : CommandExplainOptions U) : Outcome (CommandExplainOptions U) CF Cmd :=
  let r := k.Validate o.ExplainOptions
  ⟨{ o with ExplainOptions := r.1 }, [.Validate], r.2⟩

/-- `(*CommandExplainOptions).Run`, explain.go lines 121-123. -/
def CommandExplainOptions.Run {U CF Cmd : Type} (k : ExplainOptionsMethods U CF Cmd)
    (o : CommandExplainOptions U) : Outcome (CommandExplainOptions U) CF Cmd :=
  let r := k.Run o.ExplainOptions
  ⟨{ o with ExplainOptions := r.1 }, [.Run], r.2⟩

/-! ## The `Run` closures of the four commands -/

/-- The phases of an invocation, named after the adapter method the closure calls. -/
inductive Phase where
  | complete
  | validate
  | run
deriving DecidableEq, Repr

/-- What `cmdutil.CheckErr` does with the error it is given. -/
inductive CheckErrResult where
  | returns
  | exits (err : GoError)
deriving DecidableEq, Repr

/-- Modelled from the spec: `cmdutil.CheckErr` belongs to k8s.io/kubectl and is not
part of the package sources.  Section 4.3 and section 7 of the specification say
that the first error terminates the invocation and is reported to the user, and
that success lets the invocation go on: a nil error returns to the caller, any
other error ends the process with that error. -/
def CheckErr : Option GoError → CheckErrResult
  | none => .returns
  | some err => .exits err

/-- One run of a command's `Run` closure: the adapter as the closure leaves it,
the adapter methods the closure called (in order), the collaborator calls made
(in order), and the error `CheckErr` ended the process with (`none` when the
closure returned normally). -/
structure Invocation (O CF Cmd : Type) where
  o : O
  phases : List Phase
  calls : List (Call CF Cmd)
  exit : Option GoError

/-- The `Run` closure of `NewCmdAttach`, attach.go lines 67-71.  `o` is the
captured adapter as flag parsing left it. -/
def NewCmdAttach.Run {U CF Cmd : Type} (k : AttachOptionsMethods U CF Cmd) (f : Factory CF)
    (o : CommandAttachOptions U) (cmd : Cmd) (args : List String) :
    Invocation (CommandAttachOptions U) CF Cmd :=
  let c := o.Complete k f cmd args
  match CheckErr c.err with
  | .exits err => ⟨c.o, [.complete], c.calls, some err⟩
  | .returns =>
    let v : Outcome _ CF Cmd := c.o.Validate k
    match CheckErr v.err with
    | .exits err => ⟨v.o, [.complete, .validate], c.calls ++ v.calls, some err⟩
    | .returns =>
      let r : Outcome _ CF Cmd := v.o.Run k
      match CheckErr r.err with
      | .exits err =>
        ⟨r.o, [.complete, .validate, .run], c.calls ++ v.calls ++ r.calls, some err⟩
      | .returns =>
        ⟨r.o, [.complete, .validate, .run], c.calls ++ v.calls ++ r.calls, none⟩

/-- The `Run` closure of `NewCmdAPIResources`, apiresources.go lines 46-50; its
last step is the promoted method `o.RunAPIResources()`. -/
def NewCmdAPIResources.Run {U CF Cmd : Type} (k : APIResourceOptionsMethods U CF Cmd)
    (f : Factory CF) (o : CommandAPIResourcesOptions U) (cmd : Cmd) (args : List String) :
    Invocation (CommandAPIResourcesOptions U) CF Cmd :=
  let c := o.Complete k f cmd args
  match CheckErr c.err with
  | .exits err => ⟨c.o, [.complete], c.calls, some err⟩
  | .returns =>
    let v : Outcome _ CF Cmd := c.o.Validate k
    match CheckErr v.err with
    | .exits err => ⟨v.o, [.complete, .validate], c.calls ++ v.calls, some err⟩
    | .returns =>
      let r : Outcome _ CF Cmd := v.o.RunAPIResources k
      match CheckErr r.err with
      | .exits err =>
        ⟨r.o, [.complete, .validate, .run], c.calls ++ v.calls ++ r.calls, some err⟩
      | .returns =>
        ⟨r.o, [.complete, .validate, .run], c.calls ++ v.calls ++ r.calls, none⟩

/-- The `Run` closure of `NewCmdAPIVersions`, apiversions.go lines 31-34: two
steps, `o.Complete` and the promoted method `o.RunAPIVersions()`. -/
def NewCmdAPIVersions.Run {U CF Cmd : Type} (k : APIVersionsOptionsMethods U CF Cmd)
    (f : Factory CF) (o : CommandAPIVersionsOptions U) (cmd : Cmd) (args : List String) :
    Invocation (CommandAPIVersionsOptions U) CF Cmd :=
  let c := o.Complete k f cmd args
  match CheckErr c.err with
  | .exits err => ⟨c.o, [.complete], c.calls, some err⟩
  | .returns =>
    let r : Outcome _ CF Cmd := c.o.RunAPIVersions k
    match CheckErr r.err with
    | .exits err => ⟨r.o, [.complete, .run], c.calls ++ r.calls, some err⟩
    | .returns => ⟨r.o, [.complete, .run], c.calls ++ r.calls, none⟩

/-- The `Run` closure of `NewCmdExplain`, explain.go lines 72-76. -/
def NewCmdExplain.Run {U CF Cmd : Type} (k : ExplainOptionsMethods U CF Cmd) (f : Factory CF)
    (o : CommandExplainOptions U) (cmd : Cmd) (args : List String) :
    Invocation (CommandExplainOptions U) CF Cmd :=
  let c := o.Complete k f cmd args
  match CheckErr c.err with
  | .exits err => ⟨c.o, [.complete], c.calls, some err⟩
  | .returns =>
    let v : Outcome _ CF Cmd := c.o.Validate k
    match CheckErr v.err with
    | .exits err => ⟨v.o, [.complete, .validate], c.calls ++ v.calls, some err⟩
    | .returns =>
      let r : Outcome _ CF Cmd := v.o.Run k
      match CheckErr r.err with
      | .exits err =>
        ⟨r.o, [.complete, .validate, .run], c.calls ++ v.calls ++ r.calls, some err⟩
      | .returns =>
        ⟨r.o, [.complete, .validate, .run], c.calls ++ v.calls ++ r.calls, none⟩

/-! ## `fmt.Sprintf` on string operands

The help texts are built with `fmt.Sprintf(template, parentCommand)`.  The model
below follows `(*pp).doPrintf` of the Go standard library for the directives the
templates can contain: literal text, `%%`, the plain verbs `%s` and `%v`, and the
same verbs with an explicit operand index `%[n]s`, `%[n]v`.  Flags, width,
precision and the other verbs are outside the model: a format that uses them
yields `none`.  All operands are strings. -/

/-- Where the scan of the format stands. -/
inductive Scan where
  /-- copying literal text -/
  | text
  /-- just after a percent sign -/
  | verb
  /-- inside the brackets of an operand index; `n` is the number read so far and
  `digits` tells whether a digit has been read -/
  | index (n : Nat) (digits : Bool)
  /-- just after a well-formed operand index, which selected operand `argNum` -/
  | indexed (argNum : Nat)
deriving DecidableEq, Repr

/-- The printer state of `doPrintf`: the output buffer, the number of the next
operand, and whether an explicit operand index has been seen. -/
structure pp where
  buf : List Char
  argNum : Nat
  reordered : Bool
deriving DecidableEq, Repr

/-- Printing operand number `i` under verb `s` or `v`: the operand itself, or the
missing-operand marker of `(*pp).missingArg`.  Afterwards scanning resumes with
the next operand. -/
def pp.printArg (p : pp) (a : List String) (i : Nat) (verb : Char) : pp :=
  match a.get? i with
  | some x => { p with buf := p.buf ++ x.toList, argNum := i + 1 }
  | none => { p with buf := p.buf ++ ['%', '!', verb] ++ "(MISSING)".toList, argNum := i }

/-- `(*pp).doPrintf` as a scan over the characters of the format. -/
def doPrintf (a : List String) : Scan → pp → List Char → Option pp
  | .text, p, [] => some p
  | .text, p, c :: cs =>
    if c = '%' then doPrintf a .verb p cs
    else doPrintf a .text { p with buf := p.buf ++ [c] } cs
  | .verb, p, [] => some { p with buf := p.buf ++ "%!(NOVERB)".toList }
  | .verb, p, c :: cs =>
    if c = '%' then doPrintf a .text { p with buf := p.buf ++ ['%'] } cs
    else if c = '[' then doPrintf a (.index 0 false) { p with reordered := true } cs
    else if c = 's' ∨ c = 'v' then doPrintf a .text (p.printArg a p.argNum c) cs
    else none
  | .index _ _, _, [] => none
  | .index n digits, p, c :: cs =>
    if c = ']' then
      if digits ∧ 1 ≤ n ∧ n ≤ a.length then doPrintf a (.indexed (n - 1)) p cs else none
    else if c.isDigit ∧ n ≤ 1000000 then
      doPrintf a (.index (n * 10 + (c.toNat - '0'.toNat)) true) p cs
    else none
  | .indexed _, _, [] => none
  | .indexed i, p, c :: cs =>
    if c = 's' ∨ c = 'v' then doPrintf a .text (p.printArg a i c) cs else none

/-- The tail `doPrintf` appends for operands that no directive consumed:
`%!(EXTRA string=x, string=y)`. -/
def extraString (rest : List String) : List Char :=
  "%!(EXTRA ".toList ++ (", ".intercalate (rest.map fun x => "string=" ++ x)).toList ++ [')']

/-- `fmt.Sprintf(format, a...)` for string operands.  After the scan, operands
left over are reported unless an explicit operand index was used. -/
def Sprintf (format : String) (a : List String) : Option String :=
  match doPrintf a .text ⟨[], 0, false⟩ format.toList with
  | none => none
  | some p =>
    if !p.reordered && p.argNum < a.length then
      some (String.mk (p.buf ++ extraString (a.drop p.argNum)))
    else
      some (String.mk p.buf)

/-- The directive that selects the first operand and prints it under verb `s`,
`%[1]s`, as the characters of a format. -/
def indexedVerb : List Char := ['%', '[', '1', ']', 's']

/-! ## Help texts of the commands -/

/-- The text fields of a `cobra.Command` that the constructors fill.  `Long` and
`Example` are `none` when the text is built by `Sprintf` from a format outside
the modelled directives. -/
structure Command where
  Use : String
  Short : String
  Long : Option String
  Example : Option String
deriving DecidableEq, Repr

/-- The raw string literal given to `templates.LongDesc` for `explainLong`,
explain.go lines 33-41. -/
def explainLongLiteral : String :=
  "\n\t\tDescribe fields and structure of various resources in Karmada control plane or a member cluster.\n\n\t\tThis command describes the fields associated with each supported API resource.\n\t\tFields are identified via a simple JSONPath identifier:\n\n\t\t\t<type>.<fieldName>[.<fieldName>]\n\n\t\tInformation about each field is retrieved from the server in OpenAPI format."

/-- The raw string literal given to `templates.Examples` for `explainExamples`,
explain.go lines 43-57. -/
def explainExamplesLiteral : String :=
  "\n\t\t# Get the documentation of the resource and its fields in Karmada control plane\n\t\t%[1]s explain pods\n\n\t\t# Get all the fields in the resource in member cluster member1\n\t\t%[1]s explain pods --recursive -C member1\n\n\t\t# Get the explanation for deployment in supported api versions in Karmada control plane\n\t\t%[1]s explain deployments --api-version=apps/v1\n\n\t\t# Get the documentation of a specific field of a resource in member cluster member1\n\t\t%[1]s explain pods.spec.containers -C member1\n\t\t\n\t\t# Get the documentation of resources in different format in Karmada control plane\n\t\t%[1]s explain deployment --output=plaintext-openapiv2"

/-- The raw string literal given to `templates.Examples` for `apiversionsExample`,
apiversions.go lines 16-18. -/
def apiversionsExampleLiteral : String :=
  "\n\t\t# Print the supported API versions\n\t\t%[1]s api-versions"

/-- The text fields set by `NewCmdExplain`, explain.go lines 66-71.  `LongDesc` and
`Examples` are the normalisers of `k8s.io/kubectl/pkg/util/templates`, which are
not part of the package sources and are taken as given. -/
def NewCmdExplain (LongDesc Examples : String → String) (parentCommand : String) : Command :=
  let explainLong := LongDesc explainLongLiteral
  let explainExamples := Examples explainExamplesLiteral
  { Use := "explain TYPE [--recursive=FALSE|TRUE] [--api-version=api-version-group] [--output=plaintext|plaintext-openapiv2] "
    Short := "Get documentation for a resource"
    Long := Sprintf explainLong [parentCommand]
    Example := Sprintf explainExamples [parentCommand] }

/-- The text fields set by `NewCmdAPIVersions`, apiversions.go lines 25-29. -/
def NewCmdAPIVersions (Examples : String → String) (parentCommand : String) : Command :=
  let apiversionsExample := Examples apiversionsExampleLiteral
  { Use := "api-versions"
    Short := "Print the supported API versions on the server, in the form of \"group/version\""
    Long := some "Print the supported API versions on the server, in the form of \"group/version\"."
    Example := Sprintf apiversionsExample [parentCommand] }

/-! ## Sample collaborators

Concrete collaborators on which the statements below are evaluated: a registry
that knows one member cluster, and one unit of each kind whose state records the
factory and the arguments its `Complete` received. -/

/-- A factory for the control plane `karmada-apiserver` whose registry knows the
member cluster `member1` only. -/
def sampleFactory : Factory String where
  toCmdFactory := "karmada-apiserver"
  FactoryForMemberCluster := fun clusterName =>
    if clusterName = "member1" then .ok "member1-apiserver"
    else .error ⟨"cluster not found"⟩

/-- State of a sample unit: the factory bound by `Complete` (if any), the
arguments and the output format flag. -/
structure SampleOptions where
  factory : Option String
  args : List String
  Output : String
deriving DecidableEq, Repr

/-- A freshly constructed sample unit, as the `New...Options` constructors build it. -/
def SampleOptions.fresh : SampleOptions := ⟨none, [], ""⟩

/-- A sample attach unit: `Complete` binds factory and arguments, `Validate` wants
an argument, `Run` wants a bound factory. -/
def sampleAttach : AttachOptionsMethods SampleOptions String Unit where
  Complete := fun u cf _ args => (⟨some cf, args, u.Output⟩, none)
  Validate := fun u =>
    (u, if u.args.isEmpty then some ⟨"at least 1 argument is required for attach"⟩ else none)
  Run := fun u => (u, if u.factory.isNone then some ⟨"no connection"⟩ else none)

/-- A sample api-resources unit: `Validate` checks the output format only, as the
kubectl unit does. -/
def sampleAPIResources : APIResourceOptionsMethods SampleOptions String Unit where
  Complete := fun u cf _ args => (⟨some cf, args, u.Output⟩, none)
  Validate := fun u =>
    (u, if u.Output = "" ∨ u.Output = "wide" ∨ u.Output = "name" then none
        else some ⟨"--output is not available"⟩)
  RunAPIResources := fun u => (u, if u.factory.isNone then some ⟨"no connection"⟩ else none)

/-- A sample api-versions unit: `Complete` rejects arguments. -/
def sampleAPIVersions : APIVersionsOptionsMethods SampleOptions String Unit where
  Complete := fun u cf _ args =>
    if args.isEmpty then (⟨some cf, u.args, u.Output⟩, none)
    else (u, some ⟨"unexpected arguments"⟩)
  RunAPIVersions := fun u => (u, if u.factory.isNone then some ⟨"no connection"⟩ else none)

/-- A sample explain unit: `Validate` wants exactly one argument. -/
def sampleExplain : ExplainOptionsMethods SampleOptions String Unit where
  Complete := fun u cf _ args => (⟨some cf, args, u.Output⟩, none)
  Validate := fun u =>
    match u.args with
    | [_] => (u, none)
    | _ => (u, some ⟨"You must specify the type of resource to explain"⟩)
  Run := fun u => (u, if u.factory.isNone then some ⟨"no connection"⟩ else none)

/-! ## Properties of invocations

Predicates in which the statements about the `Run` closures are phrased. -/

/-- The calls to the wrapped unit in a call list: everything but the registry
lookups. -/
def unitCalls {CF Cmd : Type} (calls : List (Call CF Cmd)) : List (Call CF Cmd) :=
  calls.filter fun x => !x.isFactoryForMemberCluster

/-- An invocation `inv` of a closure with the three steps `c` (complete), `v`
(validate) and `r` (run) surfaces the first error and executes no later phase:
* if `c` fails, the invocation ends with that error after the complete phase, with
  no call to the unit's `Validate` or run step;
* if `c` succeeds and `v` fails, it ends with that error after the validate phase,
  with no call to the unit's run step;
* if `c` and `v` succeed, all three phases are executed and the invocation ends
  with whatever `r` returned;
* the invocation succeeds only if `c`, `v` and `r` all succeed. -/
def StopsAtFirstError {O CF Cmd : Type} (c v r : Outcome O CF Cmd)
    (inv : Invocation O CF Cmd) : Prop :=
  (∀ e, c.err = some e →
    inv.exit = some e ∧ inv.phases = [.complete] ∧ inv.calls = c.calls ∧ inv.o = c.o ∧
      Call.Validate ∉ inv.calls ∧ Call.Run ∉ inv.calls) ∧
  (c.err = none → ∀ e, v.err = some e →
    inv.exit = some e ∧ inv.phases = [.complete, .validate] ∧
      inv.calls = c.calls ++ v.calls ∧ inv.o = v.o ∧ Call.Run ∉ inv.calls) ∧
  (c.err = none → v.err = none →
    inv.exit = r.err ∧ inv.phases = [.complete, .validate, .run] ∧
      inv.calls = c.calls ++ v.calls ++ r.calls ∧ inv.o = r.o) ∧
  (inv.exit = none → c.err = none ∧ v.err = none ∧ r.err = none)

/-- The same for a closure with the two steps `c` (complete) and `r` (run), as the
api-versions command has. -/
def StopsAtFirstErrorNoValidate {O CF Cmd : Type} (c r : Outcome O CF Cmd)
    (inv : Invocation O CF Cmd) : Prop :=
  (∀ e, c.err = some e →
    inv.exit = some e ∧ inv.phases = [.complete] ∧ inv.calls = c.calls ∧ inv.o = c.o ∧
      Call.Run ∉ inv.calls) ∧
  (c.err = none →
    inv.exit = r.err ∧ inv.phases = [.complete, .run] ∧
      inv.calls = c.calls ++ r.calls ∧ inv.o = r.o) ∧
  (inv.exit = none → c.err = none ∧ r.err = none)

/-- A call list resolves to a single target for the selector `s` under factory
`f`: at most one registry lookup, at most one call of the unit's `Complete`, and
a `Complete` call, when there is one, received either the control-plane factory
with no lookup made (`s` empty) or the result of the one lookup of `s` (`s` not
empty). -/
def SingleTarget {CF Cmd : Type} (f : Factory CF) (s : String)
    (calls : List (Call CF Cmd)) : Prop :=
  calls.countP Call.isFactoryForMemberCluster ≤ 1 ∧
  calls.countP Call.isComplete ≤ 1 ∧
  ∀ g, g ∈ completeFactories calls →
    (s = "" ∧ lookups calls = [] ∧ g = f.toCmdFactory) ∨
    (s ≠ "" ∧ lookups calls = [s] ∧ f.FactoryForMemberCluster s = .ok g)

/-! ## Basic facts about `len` -/

theorem utf8ByteSize_go_pos (c : Char) (cs : List Char) :
    0 < String.utf8ByteSize.go (c :: cs) := by
  have h := Char.utf8Size_pos c
  simp only [String.utf8ByteSize.go]
  omega

theorem len_eq_zero_iff (s : String) : len s = 0 ↔ s = "" := by
  cases s with
  | mk cs =>
    cases cs with
    | nil => simp [len, String.utf8ByteSize, String.utf8ByteSize.go]
    | cons c cs =>
      have h := utf8ByteSize_go_pos c cs
      have hne : (String.mk (c :: cs)) ≠ "" := by
        intro hh
        have := congrArg String.data hh
        simp at this
      simp only [len, String.utf8ByteSize]
      constructor
      · intro h0; omega
      · intro h0; exact absurd h0 hne

/-! ## The three branches of each `Complete` -/

theorem attach_Complete_empty {U CF Cmd : Type}
    (k : AttachOptionsMethods U CF Cmd) (o : CommandAttachOptions U) (f : Factory CF)
    (cmd : Cmd) (args : List String) (h : o.Cluster = "") :
    o.Complete k f cmd args = ⟨o, [], some ⟨"must specify a cluster"⟩⟩ := by
  simp [CommandAttachOptions.Complete, h, len_eq_zero_iff, Errorf]

theorem attach_Complete_member {U CF Cmd : Type}
    (k : AttachOptionsMethods U CF Cmd) (o : CommandAttachOptions U) (f : Factory CF)
    (cmd : Cmd) (args : List String) (m : CF) (hs : o.Cluster ≠ "")
    (hm : f.FactoryForMemberCluster o.Cluster = .ok m) :
    o.Complete k f cmd args =
      ⟨⟨(k.Complete o.AttachOptions m cmd args).1, o.Cluster⟩,
        [.FactoryForMemberCluster o.Cluster, .Complete m cmd args],
        (k.Complete o.AttachOptions m cmd args).2⟩ := by
  simp [CommandAttachOptions.Complete, hs, hm, len_eq_zero_iff]

theorem attach_Complete_unknown {U CF Cmd : Type}
    (k : AttachOptionsMethods U CF Cmd) (o : CommandAttachOptions U) (f : Factory CF)
    (cmd : Cmd) (args : List String) (e : GoError) (hs : o.Cluster ≠ "")
    (he : f.FactoryForMemberCluster o.Cluster = .error e) :
    o.Complete k f cmd args = ⟨o, [.FactoryForMemberCluster o.Cluster], some e⟩ := by
  simp [CommandAttachOptions.Complete, hs, he, len_eq_zero_iff]

theorem apiresources_Complete_empty {U CF Cmd : Type}
    (k : APIResourceOptionsMethods U CF Cmd) (o : CommandAPIResourcesOptions U)
    (f : Factory CF) (cmd : Cmd) (args : List String) (h : o.Cluster = "") :
    o.Complete k f cmd args =
      ⟨⟨(k.Complete o.APIResourceOptions f.toCmdFactory cmd args).1, o.Cluster⟩,
        [.Complete f.toCmdFactory cmd args],
        (k.Complete o.APIResourceOptions f.toCmdFactory cmd args).2⟩ := by
  simp [CommandAPIResourcesOptions.Complete, h, len_eq_zero_iff]

theorem apiresources_Complete_member {U CF Cmd : Type}
    (k : APIResourceOptionsMethods U CF Cmd) (o : CommandAPIResourcesOptions U)
    (f : Factory CF) (cmd : Cmd) (args : List String) (m : CF) (hs : o.Cluster ≠ "")
    (hm : f.FactoryForMemberCluster o.Cluster = .ok m) :
    o.Complete k f cmd args =
      ⟨⟨(k.Complete o.APIResourceOptions m cmd args).1, o.Cluster⟩,
        [.FactoryForMemberCluster o.Cluster, .Complete m cmd args],
        (k.Complete o.APIResourceOptions m cmd args).2⟩ := by
  simp [CommandAPIResourcesOptions.Complete, hs, hm, len_eq_zero_iff]

theorem apiresources_Complete_unknown {U CF Cmd : Type}
    (k : APIResourceOptionsMethods U CF Cmd) (o : CommandAPIResourcesOptions U)
    (f : Factory CF) (cmd : Cmd) (args : List String) (e : GoError) (hs : o.Cluster ≠ "")
    (he : f.FactoryForMemberCluster o.Cluster = .error e) :
    o.Complete k f cmd args = ⟨o, [.FactoryForMemberCluster o.Cluster], some e⟩ := by
  simp [CommandAPIResourcesOptions.Complete, hs, he, len_eq_zero_iff]

theorem apiversions_Complete_empty {U CF Cmd : Type}
    (k : APIVersionsOptionsMethods U CF Cmd) (o : CommandAPIVersionsOptions U)
    (f : Factory CF) (cmd : Cmd) (args : List String) (h : o.Cluster = "") :
    o.Complete k f cmd args =
      ⟨⟨(k.Complete o.APIVersionsOptions f.toCmdFactory cmd args).1, o.Cluster⟩,
        [.Complete f.toCmdFactory cmd args],
        (k.Complete o.APIVersionsOptions f.toCmdFactory cmd args).2⟩ := by
  simp [CommandAPIVersionsOptions.Complete, h, len_eq_zero_iff]

theorem apiversions_Complete_member {U CF Cmd : Type}
    (k : APIVersionsOptionsMethods U CF Cmd) (o : CommandAPIVersionsOptions U)
    (f : Factory CF) (cmd : Cmd) (args : List String) (m : CF) (hs : o.Cluster ≠ "")
    (hm : f.FactoryForMemberCluster o.Cluster = .ok m) :
    o.Complete k f cmd args =
      ⟨⟨(k.Complete o.APIVersionsOptions m cmd args).1, o.Cluster⟩,
        [.FactoryForMemberCluster o.Cluster, .Complete m cmd args],
        (k.Complete o.APIVersionsOptions m cmd args).2⟩ := by
  simp [CommandAPIVersionsOptions.Complete, hs, hm, len_eq_zero_iff]

theorem apiversions_Complete_unknown {U CF Cmd : Type}
    (k : APIVersionsOptionsMethods U CF Cmd) (o : CommandAPIVersionsOptions U)
    (f : Factory CF) (cmd : Cmd) (args : List String) (e : GoError) (hs : o.Cluster ≠ "")
    (he : f.FactoryForMemberCluster o.Cluster = .error e) :
    o.Complete k f cmd args = ⟨o, [.FactoryForMemberCluster o.Cluster], some e⟩ := by
  simp [CommandAPIVersionsOptions.Complete, hs, he, len_eq_zero_iff]

theorem explain_Complete_empty {U CF Cmd : Type}
    (k : ExplainOptionsMethods U CF Cmd) (o : CommandExplainOptions U)
    (f : Factory CF) (cmd : Cmd) (args : List String) (h : o.Cluster = "") :
    o.Complete k f cmd args =
      ⟨⟨(k.Complete o.ExplainOptions f.toCmdFactory cmd args).1, o.Cluster⟩,
        [.Complete f.toCmdFactory cmd args],
        (k.Complete o.ExplainOptions f.toCmdFactory cmd args).2⟩ := by
  simp [CommandExplainOptions.Complete, h, len_eq_zero_iff]

theorem explain_Complete_member {U CF Cmd : Type}
    (k : ExplainOptionsMethods U CF Cmd) (o : CommandExplainOptions U)
    (f : Factory CF) (cmd : Cmd) (args : List String) (m : CF) (hs : o.Cluster ≠ "")
    (hm : f.FactoryForMemberCluster o.Cluster = .ok m) :
    o.Complete k f cmd args =
      ⟨⟨(k.Complete o.ExplainOptions m cmd args).1, o.Cluster⟩,
        [.FactoryForMemberCluster o.Cluster, .Complete m cmd args],
        (k.Complete o.ExplainOptions m cmd args).2⟩ := by
  simp [CommandExplainOptions.Complete, hs, hm, len_eq_zero_iff]

theorem explain_Complete_unknown {U CF Cmd : Type}
    (k : ExplainOptionsMethods U CF Cmd) (o : CommandExplainOptions U)
    (f : Factory CF) (cmd : Cmd) (args : List String) (e : GoError) (hs : o.Cluster ≠ "")
    (he : f.FactoryForMemberCluster o.Cluster = .error e) :
    o.Complete k f cmd args = ⟨o, [.FactoryForMemberCluster o.Cluster], some e⟩ := by
  simp [CommandExplainOptions.Complete, hs, he, len_eq_zero_iff]

/-! ## Routing performed by `Complete` -/

/-- C1: `CommandAttachOptions.Complete` with an empty `Cluster` fails with the error
"must specify a cluster" for every factory, command and argument list, and does
so before any interaction: it makes no collaborator call at all (neither
`FactoryForMemberCluster` nor the wrapped `AttachOptions.Complete`) and leaves
the adapter as it was. -/
theorem attach_complete_empty_cluster_fails {U CF Cmd : Type}
    (k : AttachOptionsMethods U CF Cmd) (o : CommandAttachOptions U) (f : Factory CF)
    (cmd : Cmd) (args : List String) (h : o.Cluster = "") :
    (o.Complete k f cmd args).err = some ⟨"must specify a cluster"⟩ ∧
    (o.Complete k f cmd args).calls = [] ∧
    (o.Complete k f cmd args).o = o := by
  rw [attach_Complete_empty k o f cmd args h]
  exact ⟨rfl, rfl, rfl⟩

theorem attach_complete_empty_cluster_fails_witness :
    (CommandAttachOptions.Complete sampleAttach ⟨SampleOptions.fresh, ""⟩ sampleFactory ()
        ["mypod"]).err = some ⟨"must specify a cluster"⟩ ∧
    (CommandAttachOptions.Complete sampleAttach ⟨SampleOptions.fresh, ""⟩ sampleFactory ()
        ["mypod"]).calls = [] ∧
    (CommandAttachOptions.Complete sampleAttach ⟨SampleOptions.fresh, ""⟩ sampleFactory ()
        ["mypod"]).o = ⟨SampleOptions.fresh, ""⟩ :=
  attach_complete_empty_cluster_fails sampleAttach ⟨SampleOptions.fresh, ""⟩ sampleFactory ()
    ["mypod"] rfl

/-- C2: for api-resources, api-versions and explain, every factory `f`, command and
argument list, `Complete` on an adapter whose `Cluster` is empty makes exactly one
collaborator call, the wrapped unit's `Complete` with the control-plane factory
`f` itself and the same `cmd` and `args` (so `FactoryForMemberCluster` is not
invoked), returns exactly the error the wrapped `Complete` returned, and keeps the
unit state the wrapped `Complete` left. -/
theorem complete_empty_cluster_uses_control_plane {Ur Uv Ue CF Cmd : Type}
    (kr : APIResourceOptionsMethods Ur CF Cmd) (kv : APIVersionsOptionsMethods Uv CF Cmd)
    (ke : ExplainOptionsMethods Ue CF Cmd) (ur : Ur) (uv : Uv) (ue : Ue)
    (f : Factory CF) (cmd : Cmd) (args : List String) :
    CommandAPIResourcesOptions.Complete kr ⟨ur, ""⟩ f cmd args =
      ⟨⟨(kr.Complete ur f.toCmdFactory cmd args).1, ""⟩,
        [.Complete f.toCmdFactory cmd args], (kr.Complete ur f.toCmdFactory cmd args).2⟩ ∧
    CommandAPIVersionsOptions.Complete kv ⟨uv, ""⟩ f cmd args =
      ⟨⟨(kv.Complete uv f.toCmdFactory cmd args).1, ""⟩,
        [.Complete f.toCmdFactory cmd args], (kv.Complete uv f.toCmdFactory cmd args).2⟩ ∧
    CommandExplainOptions.Complete ke ⟨ue, ""⟩ f cmd args =
      ⟨⟨(ke.Complete ue f.toCmdFactory cmd args).1, ""⟩,
        [.Complete f.toCmdFactory cmd args], (ke.Complete ue f.toCmdFactory cmd args).2⟩ :=
  ⟨apiresources_Complete_empty kr ⟨ur, ""⟩ f cmd args rfl,
   apiversions_Complete_empty kv ⟨uv, ""⟩ f cmd args rfl,
   explain_Complete_empty ke ⟨ue, ""⟩ f cmd args rfl⟩

/-- C3: for each of the four adapters and every non-empty `Cluster` value `s` for
which `f.FactoryForMemberCluster s` succeeds with member factory `m`, `Complete`
looks up exactly `s`, then calls the wrapped unit's `Complete` once with `m` (the
only factory handed over, so the control-plane factory is not), returns exactly
the error the wrapped `Complete` returned, and keeps the unit state it left. -/
theorem complete_member_cluster_uses_member_factory {Ua Ur Uv Ue CF Cmd : Type}
    (ka : AttachOptionsMethods Ua CF Cmd) (kr : APIResourceOptionsMethods Ur CF Cmd)
    (kv : APIVersionsOptionsMethods Uv CF Cmd) (ke : ExplainOptionsMethods Ue CF Cmd)
    (ua : Ua) (ur : Ur) (uv : Uv) (ue : Ue) (f : Factory CF) (cmd : Cmd)
    (args : List String) (s : String) (m : CF) (hs : s ≠ "")
    (hm : f.FactoryForMemberCluster s = .ok m) :
    CommandAttachOptions.Complete ka ⟨ua, s⟩ f cmd args =
      ⟨⟨(ka.Complete ua m cmd args).1, s⟩,
        [.FactoryForMemberCluster s, .Complete m cmd args], (ka.Complete ua m cmd args).2⟩ ∧
    CommandAPIResourcesOptions.Complete kr ⟨ur, s⟩ f cmd args =
      ⟨⟨(kr.Complete ur m cmd args).1, s⟩,
        [.FactoryForMemberCluster s, .Complete m cmd args], (kr.Complete ur m cmd args).2⟩ ∧
    CommandAPIVersionsOptions.Complete kv ⟨uv, s⟩ f cmd args =
      ⟨⟨(kv.Complete uv m cmd args).1, s⟩,
        [.FactoryForMemberCluster s, .Complete m cmd args], (kv.Complete uv m cmd args).2⟩ ∧
    CommandExplainOptions.Complete ke ⟨ue, s⟩ f cmd args =
      ⟨⟨(ke.Complete ue m cmd args).1, s⟩,
        [.FactoryForMemberCluster s, .Complete m cmd args], (ke.Complete ue m cmd args).2⟩ :=
  ⟨attach_Complete_member ka ⟨ua, s⟩ f cmd args m hs hm,
   apiresources_Complete_member kr ⟨ur, s⟩ f cmd args m hs hm,
   apiversions_Complete_member kv ⟨uv, s⟩ f cmd args m hs hm,
   explain_Complete_member ke ⟨ue, s⟩ f cmd args m hs hm⟩

theorem complete_member_cluster_uses_member_factory_witness :
    CommandAttachOptions.Complete sampleAttach ⟨SampleOptions.fresh, "member1"⟩ sampleFactory ()
        ["mypod"] =
      ⟨⟨⟨some "member1-apiserver", ["mypod"], ""⟩, "member1"⟩,
        [.FactoryForMemberCluster "member1", .Complete "member1-apiserver" () ["mypod"]],
        none⟩ ∧
    CommandAPIResourcesOptions.Complete sampleAPIResources ⟨SampleOptions.fresh, "member1"⟩
        sampleFactory () ["mypod"] =
      ⟨⟨⟨some "member1-apiserver", ["mypod"], ""⟩, "member1"⟩,
        [.FactoryForMemberCluster "member1", .Complete "member1-apiserver" () ["mypod"]],
        none⟩ ∧
    CommandAPIVersionsOptions.Complete sampleAPIVersions ⟨SampleOptions.fresh, "member1"⟩
        sampleFactory () ["mypod"] =
      ⟨⟨SampleOptions.fresh, "member1"⟩,
        [.FactoryForMemberCluster "member1", .Complete "member1-apiserver" () ["mypod"]],
        some ⟨"unexpected arguments"⟩⟩ ∧
    CommandExplainOptions.Complete sampleExplain ⟨SampleOptions.fresh, "member1"⟩
        sampleFactory () ["mypod"] =
      ⟨⟨⟨some "member1-apiserver", ["mypod"], ""⟩, "member1"⟩,
        [.FactoryForMemberCluster "member1", .Complete "member1-apiserver" () ["mypod"]],
        none⟩ :=
  complete_member_cluster_uses_member_factory sampleAttach sampleAPIResources sampleAPIVersions
    sampleExplain SampleOptions.fresh SampleOptions.fresh SampleOptions.fresh
    SampleOptions.fresh sampleFactory () ["mypod"] "member1" "member1-apiserver"
    (by decide) rfl

/-- C4: for each of the four adapters and every non-empty `Cluster` value `s` for
which `f.FactoryForMemberCluster s` fails with error `e`, `Complete` returns
exactly `e`, its only collaborator call is that lookup (the wrapped unit's
`Complete` is not invoked, with no factory at all), and the adapter, wrapped unit
included, is left as it was. -/
theorem complete_unknown_cluster_returns_lookup_error {Ua Ur Uv Ue CF Cmd : Type}
    (ka : AttachOptionsMethods Ua CF Cmd) (kr : APIResourceOptionsMethods Ur CF Cmd)
    (kv : APIVersionsOptionsMethods Uv CF Cmd) (ke : ExplainOptionsMethods Ue CF Cmd)
    (ua : Ua) (ur : Ur) (uv : Uv) (ue : Ue) (f : Factory CF) (cmd : Cmd)
    (args : List String) (s : String) (e : GoError) (hs : s ≠ "")
    (he : f.FactoryForMemberCluster s = .error e) :
    CommandAttachOptions.Complete ka ⟨ua, s⟩ f cmd args =
      ⟨⟨ua, s⟩, [.FactoryForMemberCluster s], some e⟩ ∧
    CommandAPIResourcesOptions.Complete kr ⟨ur, s⟩ f cmd args =
      ⟨⟨ur, s⟩, [.FactoryForMemberCluster s], some e⟩ ∧
    CommandAPIVersionsOptions.Complete kv ⟨uv, s⟩ f cmd args =
      ⟨⟨uv, s⟩, [.FactoryForMemberCluster s], some e⟩ ∧
    CommandExplainOptions.Complete ke ⟨ue, s⟩ f cmd args =
      ⟨⟨ue, s⟩, [.FactoryForMemberCluster s], some e⟩ :=
  ⟨attach_Complete_unknown ka ⟨ua, s⟩ f cmd args e hs he,
   apiresources_Complete_unknown kr ⟨ur, s⟩ f cmd args e hs he,
   apiversions_Complete_unknown kv ⟨uv, s⟩ f cmd args e hs he,
   explain_Complete_unknown ke ⟨ue, s⟩ f cmd args e hs he⟩

theorem complete_unknown_cluster_returns_lookup_error_witness :
    CommandAttachOptions.Complete sampleAttach ⟨SampleOptions.fresh, "ghost"⟩ sampleFactory ()
        ["pods"] =
      ⟨⟨SampleOptions.fresh, "ghost"⟩, [.FactoryForMemberCluster "ghost"],
        some ⟨"cluster not found"⟩⟩ ∧
    CommandAPIResourcesOptions.Complete sampleAPIResources ⟨SampleOptions.fresh, "ghost"⟩
        sampleFactory () ["pods"] =
      ⟨⟨SampleOptions.fresh, "ghost"⟩, [.FactoryForMemberCluster "ghost"],
        some ⟨"cluster not found"⟩⟩ ∧
    CommandAPIVersionsOptions.Complete sampleAPIVersions ⟨SampleOptions.fresh, "ghost"⟩
        sampleFactory () ["pods"] =
      ⟨⟨SampleOptions.fresh, "ghost"⟩, [.FactoryForMemberCluster "ghost"],
        some ⟨"cluster not found"⟩⟩ ∧
    CommandExplainOptions.Complete sampleExplain ⟨SampleOptions.fresh, "ghost"⟩
        sampleFactory () ["pods"] =
      ⟨⟨SampleOptions.fresh, "ghost"⟩, [.FactoryForMemberCluster "ghost"],
        some ⟨"cluster not found"⟩⟩ :=
  complete_unknown_cluster_returns_lookup_error sampleAttach sampleAPIResources
    sampleAPIVersions sampleExplain SampleOptions.fresh SampleOptions.fresh SampleOptions.fresh
    SampleOptions.fresh sampleFactory () ["pods"] "ghost" ⟨"cluster not found"⟩ (by decide) rfl

/-! ## `Validate` and `Run` -/

/-- C5 (as stated, refuted): on a fresh api-resources adapter, on which `Complete`
has not been invoked and whose unit has no factory bound, `Validate` delegates to
the wrapped unit and returns nil. -/
theorem validate_before_complete_can_succeed :
    CommandAPIResourcesOptions.Validate sampleAPIResources ⟨SampleOptions.fresh, ""⟩ =
      (⟨⟨SampleOptions.fresh, ""⟩, [.Validate], none⟩ :
        Outcome (CommandAPIResourcesOptions SampleOptions) String Unit) := by
  rfl

/-- C5 (amended): the adapters keep no record of whether `Complete` has run.  On
every adapter state, in particular a fresh one, `Validate` and `Run` of attach,
explain and api-resources make exactly one collaborator call, to the wrapped
unit's method of the same phase on the unit state as it stands, and return that
result: the error returned is exactly the error the wrapped method returned, the
unit state kept is the one the wrapped method left, `Cluster` is untouched, and so
the call fails exactly when the wrapped method fails. -/
theorem validate_run_before_complete_delegate {Ua Ur Ue CF Cmd : Type}
    (ka : AttachOptionsMethods Ua CF Cmd) (kr : APIResourceOptionsMethods Ur CF Cmd)
    (ke : ExplainOptionsMethods Ue CF Cmd) (ua : Ua) (ur : Ur) (ue : Ue) (c : String) :
    ((CommandAttachOptions.Validate ka ⟨ua, c⟩ : Outcome _ CF Cmd).err = (ka.Validate ua).2 ∧
      (CommandAttachOptions.Validate ka ⟨ua, c⟩ : Outcome _ CF Cmd).o = ⟨(ka.Validate ua).1, c⟩ ∧
      (CommandAttachOptions.Validate ka ⟨ua, c⟩ : Outcome _ CF Cmd).calls = [.Validate] ∧
      ((CommandAttachOptions.Validate ka ⟨ua, c⟩ : Outcome _ CF Cmd).err ≠ none ↔
        (ka.Validate ua).2 ≠ none)) ∧
    ((CommandAttachOptions.Run ka ⟨ua, c⟩ : Outcome _ CF Cmd).err = (ka.Run ua).2 ∧
      (CommandAttachOptions.Run ka ⟨ua, c⟩ : Outcome _ CF Cmd).o = ⟨(ka.Run ua).1, c⟩ ∧
      (CommandAttachOptions.Run ka ⟨ua, c⟩ : Outcome _ CF Cmd).calls = [.Run] ∧
      ((CommandAttachOptions.Run ka ⟨ua, c⟩ : Outcome _ CF Cmd).err ≠ none ↔
        (ka.Run ua).2 ≠ none)) ∧
    ((CommandExplainOptions.Validate ke ⟨ue, c⟩ : Outcome _ CF Cmd).err = (ke.Validate ue).2 ∧
      (CommandExplainOptions.Validate ke ⟨ue, c⟩ : Outcome _ CF Cmd).o = ⟨(ke.Validate ue).1, c⟩ ∧
      (CommandExplainOptions.Validate ke ⟨ue, c⟩ : Outcome _ CF Cmd).calls = [.Validate] ∧
      ((CommandExplainOptions.Validate ke ⟨ue, c⟩ : Outcome _ CF Cmd).err ≠ none ↔
        (ke.Validate ue).2 ≠ none)) ∧
    ((CommandExplainOptions.Run ke ⟨ue, c⟩ : Outcome _ CF Cmd).err = (ke.Run ue).2 ∧
      (CommandExplainOptions.Run ke ⟨ue, c⟩ : Outcome _ CF Cmd).o = ⟨(ke.Run ue).1, c⟩ ∧
      (CommandExplainOptions.Run ke ⟨ue, c⟩ : Outcome _ CF Cmd).calls = [.Run] ∧
      ((CommandExplainOptions.Run ke ⟨ue, c⟩ : Outcome _ CF Cmd).err ≠ none ↔
        (ke.Run ue).2 ≠ none)) ∧
    ((CommandAPIResourcesOptions.Validate kr ⟨ur, c⟩ : Outcome _ CF Cmd).err = (kr.Validate ur).2 ∧
      (CommandAPIResourcesOptions.Validate kr ⟨ur, c⟩ : Outcome _ CF Cmd).o = ⟨(kr.Validate ur).1, c⟩ ∧
      (CommandAPIResourcesOptions.Validate kr ⟨ur, c⟩ : Outcome _ CF Cmd).calls = [.Validate] ∧
      ((CommandAPIResourcesOptions.Validate kr ⟨ur, c⟩ : Outcome _ CF Cmd).err ≠ none ↔
        (kr.Validate ur).2 ≠ none)) ∧
    ((CommandAPIResourcesOptions.Run kr ⟨ur, c⟩ : Outcome _ CF Cmd).err = (kr.RunAPIResources ur).2 ∧
      (CommandAPIResourcesOptions.Run kr ⟨ur, c⟩ : Outcome _ CF Cmd).o = ⟨(kr.RunAPIResources ur).1, c⟩ ∧
      (CommandAPIResourcesOptions.Run kr ⟨ur, c⟩ : Outcome _ CF Cmd).calls = [.Run] ∧
      ((CommandAPIResourcesOptions.Run kr ⟨ur, c⟩ : Outcome _ CF Cmd).err ≠ none ↔
        (kr.RunAPIResources ur).2 ≠ none)) := by
  refine ⟨⟨rfl, rfl, rfl, ?_⟩, ⟨rfl, rfl, rfl, ?_⟩, ⟨rfl, rfl, rfl, ?_⟩, ⟨rfl, rfl, rfl, ?_⟩,
    ⟨rfl, rfl, rfl, ?_⟩, ⟨rfl, rfl, rfl, ?_⟩⟩ <;>
    simp [CommandAttachOptions.Validate, CommandAttachOptions.Run,
      CommandExplainOptions.Validate, CommandExplainOptions.Run,
      CommandAPIResourcesOptions.Validate, CommandAPIResourcesOptions.Run]

/-- C8: `Validate` and `Run` are pure delegation.  For attach, explain and
api-resources (and `Run` of api-versions), every unit state and every `Cluster`
value, the adapter method makes exactly one collaborator call, the wrapped unit's
method of that phase, returns exactly its error (nil or not) and keeps the unit
state it left, with `Cluster` untouched; and the promoted `RunAPIResources` that
the api-resources command dispatches is `CommandAPIResourcesOptions.Run`. -/
theorem validate_run_pure_delegation {Ua Ur Uv Ue CF Cmd : Type}
    (ka : AttachOptionsMethods Ua CF Cmd) (kr : APIResourceOptionsMethods Ur CF Cmd)
    (kv : APIVersionsOptionsMethods Uv CF Cmd) (ke : ExplainOptionsMethods Ue CF Cmd)
    (ua : Ua) (ur : Ur) (uv : Uv) (ue : Ue) (c : String) :
    (CommandAttachOptions.Validate ka ⟨ua, c⟩ : Outcome _ CF Cmd) =
      ⟨⟨(ka.Validate ua).1, c⟩, [.Validate], (ka.Validate ua).2⟩ ∧
    (CommandAttachOptions.Run ka ⟨ua, c⟩ : Outcome _ CF Cmd) =
      ⟨⟨(ka.Run ua).1, c⟩, [.Run], (ka.Run ua).2⟩ ∧
    (CommandExplainOptions.Validate ke ⟨ue, c⟩ : Outcome _ CF Cmd) =
      ⟨⟨(ke.Validate ue).1, c⟩, [.Validate], (ke.Validate ue).2⟩ ∧
    (CommandExplainOptions.Run ke ⟨ue, c⟩ : Outcome _ CF Cmd) =
      ⟨⟨(ke.Run ue).1, c⟩, [.Run], (ke.Run ue).2⟩ ∧
    (CommandAPIResourcesOptions.Validate kr ⟨ur, c⟩ : Outcome _ CF Cmd) =
      ⟨⟨(kr.Validate ur).1, c⟩, [.Validate], (kr.Validate ur).2⟩ ∧
    (CommandAPIResourcesOptions.Run kr ⟨ur, c⟩ : Outcome _ CF Cmd) =
      ⟨⟨(kr.RunAPIResources ur).1, c⟩, [.Run], (kr.RunAPIResources ur).2⟩ ∧
    (CommandAPIVersionsOptions.Run kv ⟨uv, c⟩ : Outcome _ CF Cmd) =
      ⟨⟨(kv.RunAPIVersions uv).1, c⟩, [.Run], (kv.RunAPIVersions uv).2⟩ ∧
    (CommandAPIResourcesOptions.RunAPIResources kr ⟨ur, c⟩ : Outcome _ CF Cmd) =
      CommandAPIResourcesOptions.Run kr ⟨ur, c⟩ :=
  ⟨rfl, rfl, rfl, rfl, rfl, rfl, rfl, rfl⟩

/-! ## The `Run` closures stop at the first error -/

theorem attach_Complete_calls_unit {U CF Cmd : Type}
    (k : AttachOptionsMethods U CF Cmd) (o : CommandAttachOptions U) (f : Factory CF)
    (cmd : Cmd) (args : List String) :
    Call.Validate ∉ (o.Complete k f cmd args).calls ∧
      Call.Run ∉ (o.Complete k f cmd args).calls := by
  unfold CommandAttachOptions.Complete
  split
  · simp
  · split <;> simp

theorem NewCmdAttach_Run_stops {U CF Cmd : Type}
    (k : AttachOptionsMethods U CF Cmd) (f : Factory CF) (o : CommandAttachOptions U)
    (cmd : Cmd) (args : List String) :
    StopsAtFirstError (o.Complete k f cmd args)
      (CommandAttachOptions.Validate k (o.Complete k f cmd args).o)
      (CommandAttachOptions.Run k
        (CommandAttachOptions.Validate k (o.Complete k f cmd args).o : Outcome _ CF Cmd).o)
      (NewCmdAttach.Run k f o cmd args) := by
  have hc := attach_Complete_calls_unit k o f cmd args
  unfold StopsAtFirstError NewCmdAttach.Run
  generalize o.Complete k f cmd args = c at hc ⊢
  obtain ⟨co, cc, ce⟩ := c
  cases ce with
  | some e => simp_all [CheckErr]
  | none =>
    cases hv : (k.Validate co.AttachOptions).2 with
    | some e => simp_all [CheckErr, CommandAttachOptions.Validate]
    | none =>
      cases hr : (k.Run (k.Validate co.AttachOptions).1).2 with
      | some e => simp_all [CheckErr, CommandAttachOptions.Validate, CommandAttachOptions.Run]
      | none => simp_all [CheckErr, CommandAttachOptions.Validate, CommandAttachOptions.Run]

theorem explain_Complete_calls_unit {U CF Cmd : Type}
    (k : ExplainOptionsMethods U CF Cmd) (o : CommandExplainOptions U) (f : Factory CF)
    (cmd : Cmd) (args : List String) :
    Call.Validate ∉ (o.Complete k f cmd args).calls ∧
      Call.Run ∉ (o.Complete k f cmd args).calls := by
  unfold CommandExplainOptions.Complete
  split
  · simp
  · split <;> simp

theorem NewCmdExplain_Run_stops {U CF Cmd : Type}
    (k : ExplainOptionsMethods U CF Cmd) (f : Factory CF) (o : CommandExplainOptions U)
    (cmd : Cmd) (args : List String) :
    StopsAtFirstError (o.Complete k f cmd args)
      (CommandExplainOptions.Validate k (o.Complete k f cmd args).o)
      (CommandExplainOptions.Run k
        (CommandExplainOptions.Validate k (o.Complete k f cmd args).o : Outcome _ CF Cmd).o)
      (NewCmdExplain.Run k f o cmd args) := by
  have hc := explain_Complete_calls_unit k o f cmd args
  unfold StopsAtFirstError NewCmdExplain.Run
  generalize o.Complete k f cmd args = c at hc ⊢
  obtain ⟨co, cc, ce⟩ := c
  cases ce with
  | some e => simp_all [CheckErr]
  | none =>
    cases hv : (k.Validate co.ExplainOptions).2 with
    | some e => simp_all [CheckErr, CommandExplainOptions.Validate]
    | none =>
      cases hr : (k.Run (k.Validate co.ExplainOptions).1).2 with
      | some e => simp_all [CheckErr, CommandExplainOptions.Validate, CommandExplainOptions.Run]
      | none => simp_all [CheckErr, CommandExplainOptions.Validate, CommandExplainOptions.Run]

theorem apiresources_Complete_calls_unit {U CF Cmd : Type}
    (k : APIResourceOptionsMethods U CF Cmd) (o : CommandAPIResourcesOptions U) (f : Factory CF)
    (cmd : Cmd) (args : List String) :
    Call.Validate ∉ (o.Complete k f cmd args).calls ∧
      Call.Run ∉ (o.Complete k f cmd args).calls := by
  unfold CommandAPIResourcesOptions.Complete
  split
  · simp
  · split <;> simp

theorem NewCmdAPIResources_Run_stops {U CF Cmd : Type}
    (k : APIResourceOptionsMethods U CF Cmd) (f : Factory CF) (o : CommandAPIResourcesOptions U)
    (cmd : Cmd) (args : List String) :
    StopsAtFirstError (o.Complete k f cmd args)
      (CommandAPIResourcesOptions.Validate k (o.Complete k f cmd args).o)
      (CommandAPIResourcesOptions.RunAPIResources k
        (CommandAPIResourcesOptions.Validate k (o.Complete k f cmd args).o : Outcome _ CF Cmd).o)
      (NewCmdAPIResources.Run k f o cmd args) := by
  have hc := apiresources_Complete_calls_unit k o f cmd args
  unfold StopsAtFirstError NewCmdAPIResources.Run
  generalize o.Complete k f cmd args = c at hc ⊢
  obtain ⟨co, cc, ce⟩ := c
  cases ce with
  | some e => simp_all [CheckErr]
  | none =>
    cases hv : (k.Validate co.APIResourceOptions).2 with
    | some e => simp_all [CheckErr, CommandAPIResourcesOptions.Validate]
    | none =>
      cases hr : (k.RunAPIResources (k.Validate co.APIResourceOptions).1).2 with
      | some e => simp_all [CheckErr, CommandAPIResourcesOptions.Validate, CommandAPIResourcesOptions.RunAPIResources]
      | none => simp_all [CheckErr, CommandAPIResourcesOptions.Validate, CommandAPIResourcesOptions.RunAPIResources]

theorem apiversions_Complete_calls_unit {U CF Cmd : Type}
    (k : APIVersionsOptionsMethods U CF Cmd) (o : CommandAPIVersionsOptions U) (f : Factory CF)
    (cmd : Cmd) (args : List String) :
    Call.Validate ∉ (o.Complete k f cmd args).calls ∧
      Call.Run ∉ (o.Complete k f cmd args).calls := by
  unfold CommandAPIVersionsOptions.Complete
  split
  · simp
  · split <;> simp

theorem NewCmdAPIVersions_Run_stops {U CF Cmd : Type}
    (k : APIVersionsOptionsMethods U CF Cmd) (f : Factory CF) (o : CommandAPIVersionsOptions U)
    (cmd : Cmd) (args : List String) :
    StopsAtFirstErrorNoValidate (o.Complete k f cmd args)
      (CommandAPIVersionsOptions.RunAPIVersions k (o.Complete k f cmd args).o)
      (NewCmdAPIVersions.Run k f o cmd args) := by
  have hc := apiversions_Complete_calls_unit k o f cmd args
  unfold StopsAtFirstErrorNoValidate NewCmdAPIVersions.Run
  generalize o.Complete k f cmd args = c at hc ⊢
  obtain ⟨co, cc, ce⟩ := c
  cases ce with
  | some e => simp_all [CheckErr]
  | none =>
    cases hr : (k.RunAPIVersions co.APIVersionsOptions).2 with
    | some e => simp_all [CheckErr, CommandAPIVersionsOptions.RunAPIVersions]
    | none => simp_all [CheckErr, CommandAPIVersionsOptions.RunAPIVersions]

/-- C6: each of the four `Run` closures surfaces the first phase error and executes
no later phase.  For attach, explain and api-resources: when `Complete` fails the
invocation ends with that error, only the complete phase was executed and neither
the unit's `Validate` nor its run step was called; when `Complete` succeeds and
`Validate` fails the invocation ends with that error and the run step was not
called; when both succeed the invocation ends with the result of the run step;
and the invocation succeeds only if all three succeed.  For api-versions, whose
closure has no validate step, the same holds with the two steps complete and
run. -/
theorem invocation_surfaces_first_error {Ua Ur Uv Ue CF Cmd : Type}
    (ka : AttachOptionsMethods Ua CF Cmd) (kr : APIResourceOptionsMethods Ur CF Cmd)
    (kv : APIVersionsOptionsMethods Uv CF Cmd) (ke : ExplainOptionsMethods Ue CF Cmd)
    (f : Factory CF) (oa : CommandAttachOptions Ua) (ors : CommandAPIResourcesOptions Ur)
    (ov : CommandAPIVersionsOptions Uv) (oe : CommandExplainOptions Ue)
    (cmd : Cmd) (args : List String) :
    StopsAtFirstError (oa.Complete ka f cmd args)
      (CommandAttachOptions.Validate ka (oa.Complete ka f cmd args).o)
      (CommandAttachOptions.Run ka
        (CommandAttachOptions.Validate ka (oa.Complete ka f cmd args).o : Outcome _ CF Cmd).o)
      (NewCmdAttach.Run ka f oa cmd args) ∧
    StopsAtFirstError (oe.Complete ke f cmd args)
      (CommandExplainOptions.Validate ke (oe.Complete ke f cmd args).o)
      (CommandExplainOptions.Run ke
        (CommandExplainOptions.Validate ke (oe.Complete ke f cmd args).o : Outcome _ CF Cmd).o)
      (NewCmdExplain.Run ke f oe cmd args) ∧
    StopsAtFirstError (ors.Complete kr f cmd args)
      (CommandAPIResourcesOptions.Validate kr (ors.Complete kr f cmd args).o)
      (CommandAPIResourcesOptions.RunAPIResources kr
        (CommandAPIResourcesOptions.Validate kr (ors.Complete kr f cmd args).o :
          Outcome _ CF Cmd).o)
      (NewCmdAPIResources.Run kr f ors cmd args) ∧
    StopsAtFirstErrorNoValidate (ov.Complete kv f cmd args)
      (CommandAPIVersionsOptions.RunAPIVersions kv (ov.Complete kv f cmd args).o)
      (NewCmdAPIVersions.Run kv f ov cmd args) :=
  ⟨NewCmdAttach_Run_stops ka f oa cmd args, NewCmdExplain_Run_stops ke f oe cmd args,
   NewCmdAPIResources_Run_stops kr f ors cmd args, NewCmdAPIVersions_Run_stops kv f ov cmd args⟩

theorem invocation_surfaces_first_error_witness :
    ((NewCmdAttach.Run sampleAttach sampleFactory ⟨SampleOptions.fresh, ""⟩ () []).exit =
        some ⟨"must specify a cluster"⟩ ∧
      (NewCmdAttach.Run sampleAttach sampleFactory ⟨SampleOptions.fresh, ""⟩ () []).phases =
        [.complete]) ∧
    ((NewCmdExplain.Run sampleExplain sampleFactory ⟨SampleOptions.fresh, "member1"⟩ ()
        []).exit = some ⟨"You must specify the type of resource to explain"⟩ ∧
      (NewCmdExplain.Run sampleExplain sampleFactory ⟨SampleOptions.fresh, "member1"⟩ ()
        []).phases = [.complete, .validate]) ∧
    ((NewCmdAPIResources.Run sampleAPIResources sampleFactory ⟨SampleOptions.fresh, ""⟩ ()
        []).exit = none ∧
      (NewCmdAPIResources.Run sampleAPIResources sampleFactory ⟨SampleOptions.fresh, ""⟩ ()
        []).phases = [.complete, .validate, .run]) ∧
    ((NewCmdAPIVersions.Run sampleAPIVersions sampleFactory ⟨SampleOptions.fresh, "ghost"⟩ ()
        []).exit = some ⟨"cluster not found"⟩ ∧
      (NewCmdAPIVersions.Run sampleAPIVersions sampleFactory ⟨SampleOptions.fresh, "ghost"⟩ ()
        []).phases = [.complete]) := by
  have h := invocation_surfaces_first_error sampleAttach sampleAPIResources sampleAPIVersions
    sampleExplain sampleFactory ⟨SampleOptions.fresh, ""⟩ ⟨SampleOptions.fresh, ""⟩
    ⟨SampleOptions.fresh, "ghost"⟩ ⟨SampleOptions.fresh, "member1"⟩ () []
  obtain ⟨ha, he, hr, hv⟩ := h
  refine ⟨?_, ?_, ?_, ?_⟩
  · have := ha.1 ⟨"must specify a cluster"⟩ rfl
    exact ⟨this.1, this.2.1⟩
  · have := he.2.1 rfl ⟨"You must specify the type of resource to explain"⟩ rfl
    exact ⟨this.1, this.2.1⟩
  · have := hr.2.2.1 rfl rfl
    exact ⟨this.1, this.2.1⟩
  · have := hv.1 ⟨"cluster not found"⟩ rfl
    exact ⟨this.1, this.2.1⟩

/-! ## Phases of a successful invocation -/

theorem unitCalls_append {CF Cmd : Type} (xs ys : List (Call CF Cmd)) :
    unitCalls (xs ++ ys) = unitCalls xs ++ unitCalls ys := by
  simp [unitCalls]

theorem attach_Complete_ok_unitCalls {U CF Cmd : Type}
    (k : AttachOptionsMethods U CF Cmd) (o : CommandAttachOptions U) (f : Factory CF)
    (cmd : Cmd) (args : List String) (h : (o.Complete k f cmd args).err = none) :
    ∃ g, unitCalls (o.Complete k f cmd args).calls = [.Complete g cmd args] := by
  unfold CommandAttachOptions.Complete at h ⊢
  split at h
  · simp at h
  · split at h
    · simp at h
    · rename_i m hm
      refine ⟨m, ?_⟩
      simp [*, unitCalls, Call.isFactoryForMemberCluster]

theorem NewCmdAttach_Run_ok_phases {U CF Cmd : Type}
    (k : AttachOptionsMethods U CF Cmd) (f : Factory CF) (o : CommandAttachOptions U)
    (cmd : Cmd) (args : List String) (h : (NewCmdAttach.Run k f o cmd args).exit = none) :
    (NewCmdAttach.Run k f o cmd args).phases = [.complete, .validate, .run] ∧
      ∃ g, unitCalls (NewCmdAttach.Run k f o cmd args).calls =
        [.Complete g cmd args, .Validate, .Run] := by
  have hs := NewCmdAttach_Run_stops k f o cmd args
  obtain ⟨hc, hv, -⟩ := hs.2.2.2 h
  obtain ⟨-, hph, hcalls, -⟩ := hs.2.2.1 hc hv
  obtain ⟨g, hg⟩ := attach_Complete_ok_unitCalls k o f cmd args hc
  refine ⟨hph, g, ?_⟩
  rw [hcalls, unitCalls_append, unitCalls_append, hg]
  simp [CommandAttachOptions.Validate, CommandAttachOptions.Run, unitCalls, Call.isFactoryForMemberCluster]

theorem explain_Complete_ok_unitCalls {U CF Cmd : Type}
    (k : ExplainOptionsMethods U CF Cmd) (o : CommandExplainOptions U) (f : Factory CF)
    (cmd : Cmd) (args : List String) (h : (o.Complete k f cmd args).err = none) :
    ∃ g, unitCalls (o.Complete k f cmd args).calls = [.Complete g cmd args] := by
  unfold CommandExplainOptions.Complete at h ⊢
  split at h
  · refine ⟨f.toCmdFactory, ?_⟩
    simp [*, unitCalls, Call.isFactoryForMemberCluster]
  · split at h
    · simp at h
    · rename_i m hm
      refine ⟨m, ?_⟩
      simp [*, unitCalls, Call.isFactoryForMemberCluster]

theorem NewCmdExplain_Run_ok_phases {U CF Cmd : Type}
    (k : ExplainOptionsMethods U CF Cmd) (f : Factory CF) (o : CommandExplainOptions U)
    (cmd : Cmd) (args : List String) (h : (NewCmdExplain.Run k f o cmd args).exit = none) :
    (NewCmdExplain.Run k f o cmd args).phases = [.complete, .validate, .run] ∧
      ∃ g, unitCalls (NewCmdExplain.Run k f o cmd args).calls =
        [.Complete g cmd args, .Validate, .Run] := by
  have hs := NewCmdExplain_Run_stops k f o cmd args
  obtain ⟨hc, hv, -⟩ := hs.2.2.2 h
  obtain ⟨-, hph, hcalls, -⟩ := hs.2.2.1 hc hv
  obtain ⟨g, hg⟩ := explain_Complete_ok_unitCalls k o f cmd args hc
  refine ⟨hph, g, ?_⟩
  rw [hcalls, unitCalls_append, unitCalls_append, hg]
  simp [CommandExplainOptions.Validate, CommandExplainOptions.Run, unitCalls, Call.isFactoryForMemberCluster]

theorem apiresources_Complete_ok_unitCalls {U CF Cmd : Type}
    (k : APIResourceOptionsMethods U CF Cmd) (o : CommandAPIResourcesOptions U) (f : Factory CF)
    (cmd : Cmd) (args : List String) (h : (o.Complete k f cmd args).err = none) :
    ∃ g, unitCalls (o.Complete k f cmd args).calls = [.Complete g cmd args] := by
  unfold CommandAPIResourcesOptions.Complete at h ⊢
  split at h
  · refine ⟨f.toCmdFactory, ?_⟩
    simp [*, unitCalls, Call.isFactoryForMemberCluster]
  · split at h
    · simp at h
    · rename_i m hm
      refine ⟨m, ?_⟩
      simp [*, unitCalls, Call.isFactoryForMemberCluster]

theorem NewCmdAPIResources_Run_ok_phases {U CF Cmd : Type}
    (k : APIResourceOptionsMethods U CF Cmd) (f : Factory CF) (o : CommandAPIResourcesOptions U)
    (cmd : Cmd) (args : List String) (h : (NewCmdAPIResources.Run k f o cmd args).exit = none) :
    (NewCmdAPIResources.Run k f o cmd args).phases = [.complete, .validate, .run] ∧
      ∃ g, unitCalls (NewCmdAPIResources.Run k f o cmd args).calls =
        [.Complete g cmd args, .Validate, .Run] := by
  have hs := NewCmdAPIResources_Run_stops k f o cmd args
  obtain ⟨hc, hv, -⟩ := hs.2.2.2 h
  obtain ⟨-, hph, hcalls, -⟩ := hs.2.2.1 hc hv
  obtain ⟨g, hg⟩ := apiresources_Complete_ok_unitCalls k o f cmd args hc
  refine ⟨hph, g, ?_⟩
  rw [hcalls, unitCalls_append, unitCalls_append, hg]
  simp [CommandAPIResourcesOptions.Validate, CommandAPIResourcesOptions.RunAPIResources, unitCalls, Call.isFactoryForMemberCluster]

theorem apiversions_Complete_ok_unitCalls {U CF Cmd : Type}
    (k : APIVersionsOptionsMethods U CF Cmd) (o : CommandAPIVersionsOptions U) (f : Factory CF)
    (cmd : Cmd) (args : List String) (h : (o.Complete k f cmd args).err = none) :
    ∃ g, unitCalls (o.Complete k f cmd args).calls = [.Complete g cmd args] := by
  unfold CommandAPIVersionsOptions.Complete at h ⊢
  split at h
  · refine ⟨f.toCmdFactory, ?_⟩
    simp [*, unitCalls, Call.isFactoryForMemberCluster]
  · split at h
    · simp at h
    · rename_i m hm
      refine ⟨m, ?_⟩
      simp [*, unitCalls, Call.isFactoryForMemberCluster]

theorem NewCmdAPIVersions_Run_ok_phases {U CF Cmd : Type}
    (k : APIVersionsOptionsMethods U CF Cmd) (f : Factory CF) (o : CommandAPIVersionsOptions U)
    (cmd : Cmd) (args : List String) (h : (NewCmdAPIVersions.Run k f o cmd args).exit = none) :
    (NewCmdAPIVersions.Run k f o cmd args).phases = [.complete, .run] ∧
      ∃ g, unitCalls (NewCmdAPIVersions.Run k f o cmd args).calls = [.Complete g cmd args, .Run] := by
  have hs := NewCmdAPIVersions_Run_stops k f o cmd args
  obtain ⟨hc, -⟩ := hs.2.2 h
  obtain ⟨-, hph, hcalls, -⟩ := hs.2.1 hc
  obtain ⟨g, hg⟩ := apiversions_Complete_ok_unitCalls k o f cmd args hc
  refine ⟨hph, g, ?_⟩
  rw [hcalls, unitCalls_append, hg]
  simp [CommandAPIVersionsOptions.RunAPIVersions, unitCalls, Call.isFactoryForMemberCluster]

/-- C7 (as stated, refuted): an api-versions invocation on the control plane in which
no phase fails executes the complete phase and the run phase only; there is no
validate phase, and the unit is called for `Complete` and its run step only. -/
theorem apiversions_invocation_has_no_validate_phase :
    NewCmdAPIVersions.Run sampleAPIVersions sampleFactory ⟨SampleOptions.fresh, ""⟩ () [] =
      ⟨⟨⟨some "karmada-apiserver", [], ""⟩, ""⟩, [.complete, .run],
        [.Complete "karmada-apiserver" () [], .Run], none⟩ := by
  rfl

/-- C7 (amended): an invocation in which no phase fails executes, for attach, explain
and api-resources, the phases complete, validate and run, each exactly once and in
that order, calling the unit's `Complete`, `Validate` and run step once each in
that order; for api-versions, which has no validate step, it executes complete and
then run, calling the unit's `Complete` and run step once each. -/
theorem successful_invocation_phases {Ua Ur Uv Ue CF Cmd : Type}
    (ka : AttachOptionsMethods Ua CF Cmd) (kr : APIResourceOptionsMethods Ur CF Cmd)
    (kv : APIVersionsOptionsMethods Uv CF Cmd) (ke : ExplainOptionsMethods Ue CF Cmd)
    (f : Factory CF) (oa : CommandAttachOptions Ua) (ors : CommandAPIResourcesOptions Ur)
    (ov : CommandAPIVersionsOptions Uv) (oe : CommandExplainOptions Ue)
    (cmd : Cmd) (args : List String) :
    ((NewCmdAttach.Run ka f oa cmd args).exit = none →
      (NewCmdAttach.Run ka f oa cmd args).phases = [.complete, .validate, .run] ∧
      ∃ g, unitCalls (NewCmdAttach.Run ka f oa cmd args).calls =
        [.Complete g cmd args, .Validate, .Run]) ∧
    ((NewCmdExplain.Run ke f oe cmd args).exit = none →
      (NewCmdExplain.Run ke f oe cmd args).phases = [.complete, .validate, .run] ∧
      ∃ g, unitCalls (NewCmdExplain.Run ke f oe cmd args).calls =
        [.Complete g cmd args, .Validate, .Run]) ∧
    ((NewCmdAPIResources.Run kr f ors cmd args).exit = none →
      (NewCmdAPIResources.Run kr f ors cmd args).phases = [.complete, .validate, .run] ∧
      ∃ g, unitCalls (NewCmdAPIResources.Run kr f ors cmd args).calls =
        [.Complete g cmd args, .Validate, .Run]) ∧
    ((NewCmdAPIVersions.Run kv f ov cmd args).exit = none →
      (NewCmdAPIVersions.Run kv f ov cmd args).phases = [.complete, .run] ∧
      ∃ g, unitCalls (NewCmdAPIVersions.Run kv f ov cmd args).calls =
        [.Complete g cmd args, .Run]) :=
  ⟨NewCmdAttach_Run_ok_phases ka f oa cmd args, NewCmdExplain_Run_ok_phases ke f oe cmd args,
   NewCmdAPIResources_Run_ok_phases kr f ors cmd args,
   NewCmdAPIVersions_Run_ok_phases kv f ov cmd args⟩

theorem successful_invocation_phases_witness :
    (NewCmdAttach.Run sampleAttach sampleFactory ⟨SampleOptions.fresh, "member1"⟩ ()
        ["mypod"]).phases = [.complete, .validate, .run] ∧
    (NewCmdExplain.Run sampleExplain sampleFactory ⟨SampleOptions.fresh, ""⟩ ()
        ["mypod"]).phases = [.complete, .validate, .run] ∧
    (NewCmdAPIResources.Run sampleAPIResources sampleFactory ⟨SampleOptions.fresh, ""⟩ ()
        ["mypod"]).phases = [.complete, .validate, .run] ∧
    (NewCmdAPIVersions.Run sampleAPIVersions sampleFactory ⟨SampleOptions.fresh, "member1"⟩ ()
        []).phases = [.complete, .run] := by
  have h := successful_invocation_phases sampleAttach sampleAPIResources sampleAPIVersions
    sampleExplain sampleFactory ⟨SampleOptions.fresh, "member1"⟩ ⟨SampleOptions.fresh, ""⟩
    ⟨SampleOptions.fresh, "member1"⟩ ⟨SampleOptions.fresh, ""⟩ ()
  exact ⟨((h ["mypod"]).1 rfl).1, ((h ["mypod"]).2.1 rfl).1, ((h ["mypod"]).2.2.1 rfl).1,
    ((h []).2.2.2 rfl).1⟩

/-! ## One target per invocation -/

theorem lookups_append {CF Cmd : Type} (xs ys : List (Call CF Cmd)) :
    lookups (xs ++ ys) = lookups xs ++ lookups ys := by
  induction xs with
  | nil => rfl
  | cons x xs ih => cases x <;> simp [lookups, ih]

theorem completeFactories_append {CF Cmd : Type} (xs ys : List (Call CF Cmd)) :
    completeFactories (xs ++ ys) = completeFactories xs ++ completeFactories ys := by
  induction xs with
  | nil => rfl
  | cons x xs ih => cases x <;> simp [completeFactories, ih]

theorem validate_run_tail_facts {CF Cmd : Type} (tail : List (Call CF Cmd))
    (ht : ∀ x ∈ tail, x = Call.Validate ∨ x = Call.Run) :
    lookups tail = [] ∧ completeFactories tail = [] ∧
      tail.countP Call.isFactoryForMemberCluster = 0 ∧ tail.countP Call.isComplete = 0 := by
  induction tail with
  | nil => simp [lookups, completeFactories]
  | cons x xs ih =>
    have hx := ht x (by simp)
    have ih2 := ih (fun y hy => ht y (by simp [hy]))
    rcases hx with hx | hx <;>
      simp [hx, lookups, completeFactories, ih2, Call.isFactoryForMemberCluster,
        Call.isComplete]

theorem attach_Complete_singleTarget {U CF Cmd : Type}
    (k : AttachOptionsMethods U CF Cmd) (o : CommandAttachOptions U) (f : Factory CF)
    (cmd : Cmd) (args : List String) (tail : List (Call CF Cmd))
    (ht : ∀ x ∈ tail, x = Call.Validate ∨ x = Call.Run) :
    SingleTarget f o.Cluster ((o.Complete k f cmd args).calls ++ tail) ∧
      (o.Complete k f cmd args).o.Cluster = o.Cluster := by
  have hl := validate_run_tail_facts tail ht
  obtain ⟨h1, h2, h3, h4⟩ := hl
  unfold SingleTarget
  simp only [List.countP_append, lookups_append, completeFactories_append, h1, h2, h3, h4,
    List.append_nil, Nat.add_zero]
  by_cases hs : o.Cluster = ""
  · rw [attach_Complete_empty k o f cmd args hs]
    simp [hs, lookups, completeFactories, Call.isFactoryForMemberCluster, Call.isComplete]
  · cases hm : f.FactoryForMemberCluster o.Cluster with
    | error e =>
      rw [attach_Complete_unknown k o f cmd args e hs hm]
      simp [hs, lookups, completeFactories, Call.isFactoryForMemberCluster, Call.isComplete]
    | ok m =>
      rw [attach_Complete_member k o f cmd args m hs hm]
      simp [hs, lookups, completeFactories, Call.isFactoryForMemberCluster, Call.isComplete]

theorem explain_Complete_singleTarget {U CF Cmd : Type}
    (k : ExplainOptionsMethods U CF Cmd) (o : CommandExplainOptions U) (f : Factory CF)
    (cmd : Cmd) (args : List String) (tail : List (Call CF Cmd))
    (ht : ∀ x ∈ tail, x = Call.Validate ∨ x = Call.Run) :
    SingleTarget f o.Cluster ((o.Complete k f cmd args).calls ++ tail) ∧
      (o.Complete k f cmd args).o.Cluster = o.Cluster := by
  have hl := validate_run_tail_facts tail ht
  obtain ⟨h1, h2, h3, h4⟩ := hl
  unfold SingleTarget
  simp only [List.countP_append, lookups_append, completeFactories_append, h1, h2, h3, h4,
    List.append_nil, Nat.add_zero]
  by_cases hs : o.Cluster = ""
  · rw [explain_Complete_empty k o f cmd args hs]
    simp [hs, lookups, completeFactories, Call.isFactoryForMemberCluster, Call.isComplete]
  · cases hm : f.FactoryForMemberCluster o.Cluster with
    | error e =>
      rw [explain_Complete_unknown k o f cmd args e hs hm]
      simp [hs, lookups, completeFactories, Call.isFactoryForMemberCluster, Call.isComplete]
    | ok m =>
      rw [explain_Complete_member k o f cmd args m hs hm]
      simp [hs, lookups, completeFactories, Call.isFactoryForMemberCluster, Call.isComplete]

theorem apiresources_Complete_singleTarget {U CF Cmd : Type}
    (k : APIResourceOptionsMethods U CF Cmd) (o : CommandAPIResourcesOptions U) (f : Factory CF)
    (cmd : Cmd) (args : List String) (tail : List (Call CF Cmd))
    (ht : ∀ x ∈ tail, x = Call.Validate ∨ x = Call.Run) :
    SingleTarget f o.Cluster ((o.Complete k f cmd args).calls ++ tail) ∧
      (o.Complete k f cmd args).o.Cluster = o.Cluster := by
  have hl := validate_run_tail_facts tail ht
  obtain ⟨h1, h2, h3, h4⟩ := hl
  unfold SingleTarget
  simp only [List.countP_append, lookups_append, completeFactories_append, h1, h2, h3, h4,
    List.append_nil, Nat.add_zero]
  by_cases hs : o.Cluster = ""
  · rw [apiresources_Complete_empty k o f cmd args hs]
    simp [hs, lookups, completeFactories, Call.isFactoryForMemberCluster, Call.isComplete]
  · cases hm : f.FactoryForMemberCluster o.Cluster with
    | error e =>
      rw [apiresources_Complete_unknown k o f cmd args e hs hm]
      simp [hs, lookups, completeFactories, Call.isFactoryForMemberCluster, Call.isComplete]
    | ok m =>
      rw [apiresources_Complete_member k o f cmd args m hs hm]
      simp [hs, lookups, completeFactories, Call.isFactoryForMemberCluster, Call.isComplete]

theorem apiversions_Complete_singleTarget {U CF Cmd : Type}
    (k : APIVersionsOptionsMethods U CF Cmd) (o : CommandAPIVersionsOptions U) (f : Factory CF)
    (cmd : Cmd) (args : List String) (tail : List (Call CF Cmd))
    (ht : ∀ x ∈ tail, x = Call.Validate ∨ x = Call.Run) :
    SingleTarget f o.Cluster ((o.Complete k f cmd args).calls ++ tail) ∧
      (o.Complete k f cmd args).o.Cluster = o.Cluster := by
  have hl := validate_run_tail_facts tail ht
  obtain ⟨h1, h2, h3, h4⟩ := hl
  unfold SingleTarget
  simp only [List.countP_append, lookups_append, completeFactories_append, h1, h2, h3, h4,
    List.append_nil, Nat.add_zero]
  by_cases hs : o.Cluster = ""
  · rw [apiversions_Complete_empty k o f cmd args hs]
    simp [hs, lookups, completeFactories, Call.isFactoryForMemberCluster, Call.isComplete]
  · cases hm : f.FactoryForMemberCluster o.Cluster with
    | error e =>
      rw [apiversions_Complete_unknown k o f cmd args e hs hm]
      simp [hs, lookups, completeFactories, Call.isFactoryForMemberCluster, Call.isComplete]
    | ok m =>
      rw [apiversions_Complete_member k o f cmd args m hs hm]
      simp [hs, lookups, completeFactories, Call.isFactoryForMemberCluster, Call.isComplete]

theorem NewCmdAttach_Run_calls {U CF Cmd : Type}
    (k : AttachOptionsMethods U CF Cmd) (f : Factory CF) (o : CommandAttachOptions U)
    (cmd : Cmd) (args : List String) :
    ∃ tail : List (Call CF Cmd), (∀ x ∈ tail, x = Call.Validate ∨ x = Call.Run) ∧
      (NewCmdAttach.Run k f o cmd args).calls = (o.Complete k f cmd args).calls ++ tail ∧
      (NewCmdAttach.Run k f o cmd args).o.Cluster = (o.Complete k f cmd args).o.Cluster := by
  unfold NewCmdAttach.Run
  generalize o.Complete k f cmd args = c
  obtain ⟨co, cc, ce⟩ := c
  cases ce with
  | some e => exact ⟨[], by simp [CheckErr]⟩
  | none =>
    cases hv : (k.Validate co.AttachOptions).2 with
    | some e => exact ⟨[.Validate], by simp [CheckErr, CommandAttachOptions.Validate, hv]⟩
    | none =>
      cases hr : (k.Run (k.Validate co.AttachOptions).1).2 with
      | some e =>
        exact ⟨[.Validate, .Run], by simp [CheckErr, CommandAttachOptions.Validate, CommandAttachOptions.Run, hv, hr]⟩
      | none =>
        exact ⟨[.Validate, .Run], by simp [CheckErr, CommandAttachOptions.Validate, CommandAttachOptions.Run, hv, hr]⟩

theorem attach_single_target {U CF Cmd : Type}
    (k : AttachOptionsMethods U CF Cmd) (f : Factory CF) (o : CommandAttachOptions U)
    (cmd : Cmd) (args : List String) :
    SingleTarget f o.Cluster
      ((o.Complete k f cmd args).calls ++
        (CommandAttachOptions.Validate k (o.Complete k f cmd args).o : Outcome _ CF Cmd).calls ++
        (CommandAttachOptions.Run k (CommandAttachOptions.Validate k (o.Complete k f cmd args).o :
          Outcome _ CF Cmd).o : Outcome _ CF Cmd).calls) ∧
    SingleTarget f o.Cluster (NewCmdAttach.Run k f o cmd args).calls ∧
    (o.Complete k f cmd args).o.Cluster = o.Cluster ∧
    (NewCmdAttach.Run k f o cmd args).o.Cluster = o.Cluster ∧
    (CommandAttachOptions.Validate k o : Outcome _ CF Cmd).calls = [.Validate] ∧
    (CommandAttachOptions.Validate k o : Outcome _ CF Cmd).o.Cluster = o.Cluster ∧
    (CommandAttachOptions.Run k o : Outcome _ CF Cmd).calls = [.Run] ∧
    (CommandAttachOptions.Run k o : Outcome _ CF Cmd).o.Cluster = o.Cluster := by
  obtain ⟨tail, ht, hcalls, hcl⟩ := NewCmdAttach_Run_calls k f o cmd args
  have h1 := attach_Complete_singleTarget k o f cmd args [.Validate, .Run] (by simp)
  have h2 := attach_Complete_singleTarget k o f cmd args tail ht
  refine ⟨?_, ?_, h1.2, ?_, rfl, rfl, rfl, rfl⟩
  · simpa [CommandAttachOptions.Validate, CommandAttachOptions.Run, List.append_assoc] using h1.1
  · rw [hcalls]; exact h2.1
  · rw [hcl]; exact h1.2

theorem NewCmdExplain_Run_calls {U CF Cmd : Type}
    (k : ExplainOptionsMethods U CF Cmd) (f : Factory CF) (o : CommandExplainOptions U)
    (cmd : Cmd) (args : List String) :
    ∃ tail : List (Call CF Cmd), (∀ x ∈ tail, x = Call.Validate ∨ x = Call.Run) ∧
      (NewCmdExplain.Run k f o cmd args).calls = (o.Complete k f cmd args).calls ++ tail ∧
      (NewCmdExplain.Run k f o cmd args).o.Cluster = (o.Complete k f cmd args).o.Cluster := by
  unfold NewCmdExplain.Run
  generalize o.Complete k f cmd args = c
  obtain ⟨co, cc, ce⟩ := c
  cases ce with
  | some e => exact ⟨[], by simp [CheckErr]⟩
  | none =>
    cases hv : (k.Validate co.ExplainOptions).2 with
    | some e => exact ⟨[.Validate], by simp [CheckErr, CommandExplainOptions.Validate, hv]⟩
    | none =>
      cases hr : (k.Run (k.Validate co.ExplainOptions).1).2 with
      | some e =>
        exact ⟨[.Validate, .Run], by simp [CheckErr, CommandExplainOptions.Validate, CommandExplainOptions.Run, hv, hr]⟩
      | none =>
        exact ⟨[.Validate, .Run], by simp [CheckErr, CommandExplainOptions.Validate, CommandExplainOptions.Run, hv, hr]⟩

theorem explain_single_target {U CF Cmd : Type}
    (k : ExplainOptionsMethods U CF Cmd) (f : Factory CF) (o : CommandExplainOptions U)
    (cmd : Cmd) (args : List String) :
    SingleTarget f o.Cluster
      ((o.Complete k f cmd args).calls ++
        (CommandExplainOptions.Validate k (o.Complete k f cmd args).o : Outcome _ CF Cmd).calls ++
        (CommandExplainOptions.Run k (CommandExplainOptions.Validate k (o.Complete k f cmd args).o :
          Outcome _ CF Cmd).o : Outcome _ CF Cmd).calls) ∧
    SingleTarget f o.Cluster (NewCmdExplain.Run k f o cmd args).calls ∧
    (o.Complete k f cmd args).o.Cluster = o.Cluster ∧
    (NewCmdExplain.Run k f o cmd args).o.Cluster = o.Cluster ∧
    (CommandExplainOptions.Validate k o : Outcome _ CF Cmd).calls = [.Validate] ∧
    (CommandExplainOptions.Validate k o : Outcome _ CF Cmd).o.Cluster = o.Cluster ∧
    (CommandExplainOptions.Run k o : Outcome _ CF Cmd).calls = [.Run] ∧
    (CommandExplainOptions.Run k o : Outcome _ CF Cmd).o.Cluster = o.Cluster := by
  obtain ⟨tail, ht, hcalls, hcl⟩ := NewCmdExplain_Run_calls k f o cmd args
  have h1 := explain_Complete_singleTarget k o f cmd args [.Validate, .Run] (by simp)
  have h2 := explain_Complete_singleTarget k o f cmd args tail ht
  refine ⟨?_, ?_, h1.2, ?_, rfl, rfl, rfl, rfl⟩
  · simpa [CommandExplainOptions.Validate, CommandExplainOptions.Run, List.append_assoc] using h1.1
  · rw [hcalls]; exact h2.1
  · rw [hcl]; exact h1.2

theorem NewCmdAPIResources_Run_calls {U CF Cmd : Type}
    (k : APIResourceOptionsMethods U CF Cmd) (f : Factory CF) (o : CommandAPIResourcesOptions U)
    (cmd : Cmd) (args : List String) :
    ∃ tail : List (Call CF Cmd), (∀ x ∈ tail, x = Call.Validate ∨ x = Call.Run) ∧
      (NewCmdAPIResources.Run k f o cmd args).calls = (o.Complete k f cmd args).calls ++ tail ∧
      (NewCmdAPIResources.Run k f o cmd args).o.Cluster = (o.Complete k f cmd args).o.Cluster := by
  unfold NewCmdAPIResources.Run
  generalize o.Complete k f cmd args = c
  obtain ⟨co, cc, ce⟩ := c
  cases ce with
  | some e => exact ⟨[], by simp [CheckErr]⟩
  | none =>
    cases hv : (k.Validate co.APIResourceOptions).2 with
    | some e => exact ⟨[.Validate], by simp [CheckErr, CommandAPIResourcesOptions.Validate, hv]⟩
    | none =>
      cases hr : (k.RunAPIResources (k.Validate co.APIResourceOptions).1).2 with
      | some e =>
        exact ⟨[.Validate, .Run], by simp [CheckErr, CommandAPIResourcesOptions.Validate, CommandAPIResourcesOptions.RunAPIResources, hv, hr]⟩
      | none =>
        exact ⟨[.Validate, .Run], by simp [CheckErr, CommandAPIResourcesOptions.Validate, CommandAPIResourcesOptions.RunAPIResources, hv, hr]⟩

theorem apiresources_single_target {U CF Cmd : Type}
    (k : APIResourceOptionsMethods U CF Cmd) (f : Factory CF) (o : CommandAPIResourcesOptions U)
    (cmd : Cmd) (args : List String) :
    SingleTarget f o.Cluster
      ((o.Complete k f cmd args).calls ++
        (CommandAPIResourcesOptions.Validate k (o.Complete k f cmd args).o : Outcome _ CF Cmd).calls ++
        (CommandAPIResourcesOptions.Run k (CommandAPIResourcesOptions.Validate k (o.Complete k f cmd args).o :
          Outcome _ CF Cmd).o : Outcome _ CF Cmd).calls) ∧
    SingleTarget f o.Cluster (NewCmdAPIResources.Run k f o cmd args).calls ∧
    (o.Complete k f cmd args).o.Cluster = o.Cluster ∧
    (NewCmdAPIResources.Run k f o cmd args).o.Cluster = o.Cluster ∧
    (CommandAPIResourcesOptions.Validate k o : Outcome _ CF Cmd).calls = [.Validate] ∧
    (CommandAPIResourcesOptions.Validate k o : Outcome _ CF Cmd).o.Cluster = o.Cluster ∧
    (CommandAPIResourcesOptions.Run k o : Outcome _ CF Cmd).calls = [.Run] ∧
    (CommandAPIResourcesOptions.Run k o : Outcome _ CF Cmd).o.Cluster = o.Cluster := by
  obtain ⟨tail, ht, hcalls, hcl⟩ := NewCmdAPIResources_Run_calls k f o cmd args
  have h1 := apiresources_Complete_singleTarget k o f cmd args [.Validate, .Run] (by simp)
  have h2 := apiresources_Complete_singleTarget k o f cmd args tail ht
  refine ⟨?_, ?_, h1.2, ?_, rfl, rfl, rfl, rfl⟩
  · simpa [CommandAPIResourcesOptions.Validate, CommandAPIResourcesOptions.Run, List.append_assoc] using h1.1
  · rw [hcalls]; exact h2.1
  · rw [hcl]; exact h1.2

theorem NewCmdAPIVersions_Run_calls {U CF Cmd : Type}
    (k : APIVersionsOptionsMethods U CF Cmd) (f : Factory CF) (o : CommandAPIVersionsOptions U)
    (cmd : Cmd) (args : List String) :
    ∃ tail : List (Call CF Cmd), (∀ x ∈ tail, x = Call.Validate ∨ x = Call.Run) ∧
      (NewCmdAPIVersions.Run k f o cmd args).calls = (o.Complete k f cmd args).calls ++ tail ∧
      (NewCmdAPIVersions.Run k f o cmd args).o.Cluster = (o.Complete k f cmd args).o.Cluster := by
  unfold NewCmdAPIVersions.Run
  generalize o.Complete k f cmd args = c
  obtain ⟨co, cc, ce⟩ := c
  cases ce with
  | some e => exact ⟨[], by simp [CheckErr]⟩
  | none =>
    cases hr : (k.RunAPIVersions co.APIVersionsOptions).2 with
    | some e => exact ⟨[.Run], by simp [CheckErr, CommandAPIVersionsOptions.RunAPIVersions, hr]⟩
    | none => exact ⟨[.Run], by simp [CheckErr, CommandAPIVersionsOptions.RunAPIVersions, hr]⟩

theorem apiversions_single_target {U CF Cmd : Type}
    (k : APIVersionsOptionsMethods U CF Cmd) (f : Factory CF) (o : CommandAPIVersionsOptions U)
    (cmd : Cmd) (args : List String) :
    SingleTarget f o.Cluster
      ((o.Complete k f cmd args).calls ++
        (CommandAPIVersionsOptions.Run k (o.Complete k f cmd args).o : Outcome _ CF Cmd).calls) ∧
    SingleTarget f o.Cluster (NewCmdAPIVersions.Run k f o cmd args).calls ∧
    (o.Complete k f cmd args).o.Cluster = o.Cluster ∧
    (NewCmdAPIVersions.Run k f o cmd args).o.Cluster = o.Cluster ∧
    (CommandAPIVersionsOptions.Run k o : Outcome _ CF Cmd).calls = [.Run] ∧
    (CommandAPIVersionsOptions.Run k o : Outcome _ CF Cmd).o.Cluster = o.Cluster := by
  obtain ⟨tail, ht, hcalls, hcl⟩ := NewCmdAPIVersions_Run_calls k f o cmd args
  have h1 := apiversions_Complete_singleTarget k o f cmd args [.Run] (by simp)
  have h2 := apiversions_Complete_singleTarget k o f cmd args tail ht
  refine ⟨?_, ?_, h1.2, ?_, rfl, rfl⟩
  · simpa [CommandAPIVersionsOptions.Run, List.append_assoc] using h1.1
  · rw [hcalls]; exact h2.1
  · rw [hcl]; exact h1.2

theorem attach_Complete_ok_member {U CF Cmd : Type}
    (k : AttachOptionsMethods U CF Cmd) (o : CommandAttachOptions U) (f : Factory CF)
    (cmd : Cmd) (args : List String) (h : (o.Complete k f cmd args).err = none) :
    o.Cluster ≠ "" ∧ ∃ m, f.FactoryForMemberCluster o.Cluster = .ok m ∧
      (o.Complete k f cmd args).calls =
        [.FactoryForMemberCluster o.Cluster, .Complete m cmd args] := by
  by_cases hs : o.Cluster = ""
  · rw [attach_Complete_empty k o f cmd args hs] at h
    simp at h
  · cases hm : f.FactoryForMemberCluster o.Cluster with
    | error e =>
      rw [attach_Complete_unknown k o f cmd args e hs hm] at h
      simp at h
    | ok m =>
      refine ⟨hs, m, rfl, ?_⟩
      rw [attach_Complete_member k o f cmd args m hs hm]

/-- C9: single-target invariant.  For each of the four adapters, the calls made by
`Complete`, then `Validate`, then `Run` (api-versions: `Complete`, then `Run`),
and likewise the calls made by the command's `Run` closure, contain at most one
registry lookup and at most one call of the unit's `Complete`, and that call
received the control-plane factory with no lookup made when `Cluster` is empty,
and the result of the one lookup of `Cluster` when it is not.  `Validate` and `Run`
each make a single call, to the unit's method of that phase, and no method changes
`Cluster`.  For attach, a `Complete` that succeeds had a non-empty `Cluster`, a
successful lookup of it, and handed the member factory to the unit. -/
theorem single_target_per_invocation {Ua Ur Uv Ue CF Cmd : Type}
    (ka : AttachOptionsMethods Ua CF Cmd) (kr : APIResourceOptionsMethods Ur CF Cmd)
    (kv : APIVersionsOptionsMethods Uv CF Cmd) (ke : ExplainOptionsMethods Ue CF Cmd)
    (f : Factory CF) (oa : CommandAttachOptions Ua) (ors : CommandAPIResourcesOptions Ur)
    (ov : CommandAPIVersionsOptions Uv) (oe : CommandExplainOptions Ue)
    (cmd : Cmd) (args : List String) :
    (SingleTarget f oa.Cluster
      ((oa.Complete ka f cmd args).calls ++
        (CommandAttachOptions.Validate ka (oa.Complete ka f cmd args).o : Outcome _ CF Cmd).calls ++
        (CommandAttachOptions.Run ka (CommandAttachOptions.Validate ka (oa.Complete ka f cmd args).o :
          Outcome _ CF Cmd).o : Outcome _ CF Cmd).calls) ∧
      SingleTarget f oa.Cluster (NewCmdAttach.Run ka f oa cmd args).calls ∧
      (oa.Complete ka f cmd args).o.Cluster = oa.Cluster ∧
      (NewCmdAttach.Run ka f oa cmd args).o.Cluster = oa.Cluster ∧
      (CommandAttachOptions.Validate ka oa : Outcome _ CF Cmd).calls = [.Validate] ∧
      (CommandAttachOptions.Validate ka oa : Outcome _ CF Cmd).o.Cluster = oa.Cluster ∧
      (CommandAttachOptions.Run ka oa : Outcome _ CF Cmd).calls = [.Run] ∧
      (CommandAttachOptions.Run ka oa : Outcome _ CF Cmd).o.Cluster = oa.Cluster) ∧
    (SingleTarget f oe.Cluster
      ((oe.Complete ke f cmd args).calls ++
        (CommandExplainOptions.Validate ke (oe.Complete ke f cmd args).o : Outcome _ CF Cmd).calls ++
        (CommandExplainOptions.Run ke (CommandExplainOptions.Validate ke (oe.Complete ke f cmd args).o :
          Outcome _ CF Cmd).o : Outcome _ CF Cmd).calls) ∧
      SingleTarget f oe.Cluster (NewCmdExplain.Run ke f oe cmd args).calls ∧
      (oe.Complete ke f cmd args).o.Cluster = oe.Cluster ∧
      (NewCmdExplain.Run ke f oe cmd args).o.Cluster = oe.Cluster ∧
      (CommandExplainOptions.Validate ke oe : Outcome _ CF Cmd).calls = [.Validate] ∧
      (CommandExplainOptions.Validate ke oe : Outcome _ CF Cmd).o.Cluster = oe.Cluster ∧
      (CommandExplainOptions.Run ke oe : Outcome _ CF Cmd).calls = [.Run] ∧
      (CommandExplainOptions.Run ke oe : Outcome _ CF Cmd).o.Cluster = oe.Cluster) ∧
    (SingleTarget f ors.Cluster
      ((ors.Complete kr f cmd args).calls ++
        (CommandAPIResourcesOptions.Validate kr (ors.Complete kr f cmd args).o : Outcome _ CF Cmd).calls ++
        (CommandAPIResourcesOptions.Run kr (CommandAPIResourcesOptions.Validate kr (ors.Complete kr f cmd args).o :
          Outcome _ CF Cmd).o : Outcome _ CF Cmd).calls) ∧
      SingleTarget f ors.Cluster (NewCmdAPIResources.Run kr f ors cmd args).calls ∧
      (ors.Complete kr f cmd args).o.Cluster = ors.Cluster ∧
      (NewCmdAPIResources.Run kr f ors cmd args).o.Cluster = ors.Cluster ∧
      (CommandAPIResourcesOptions.Validate kr ors : Outcome _ CF Cmd).calls = [.Validate] ∧
      (CommandAPIResourcesOptions.Validate kr ors : Outcome _ CF Cmd).o.Cluster = ors.Cluster ∧
      (CommandAPIResourcesOptions.Run kr ors : Outcome _ CF Cmd).calls = [.Run] ∧
      (CommandAPIResourcesOptions.Run kr ors : Outcome _ CF Cmd).o.Cluster = ors.Cluster) ∧
    (SingleTarget f ov.Cluster
      ((ov.Complete kv f cmd args).calls ++
        (CommandAPIVersionsOptions.Run kv (ov.Complete kv f cmd args).o : Outcome _ CF Cmd).calls) ∧
      SingleTarget f ov.Cluster (NewCmdAPIVersions.Run kv f ov cmd args).calls ∧
      (ov.Complete kv f cmd args).o.Cluster = ov.Cluster ∧
      (NewCmdAPIVersions.Run kv f ov cmd args).o.Cluster = ov.Cluster ∧
      (CommandAPIVersionsOptions.Run kv ov : Outcome _ CF Cmd).calls = [.Run] ∧
      (CommandAPIVersionsOptions.Run kv ov : Outcome _ CF Cmd).o.Cluster = ov.Cluster) ∧
    ((oa.Complete ka f cmd args).err = none →
      oa.Cluster ≠ "" ∧ ∃ m, f.FactoryForMemberCluster oa.Cluster = .ok m ∧
        (oa.Complete ka f cmd args).calls =
          [.FactoryForMemberCluster oa.Cluster, .Complete m cmd args]) :=
  ⟨attach_single_target ka f oa cmd args, explain_single_target ke f oe cmd args,
   apiresources_single_target kr f ors cmd args, apiversions_single_target kv f ov cmd args,
   attach_Complete_ok_member ka oa f cmd args⟩

theorem single_target_per_invocation_witness :
    "member1" ≠ "" ∧ ∃ m, sampleFactory.FactoryForMemberCluster "member1" = .ok m ∧
      (CommandAttachOptions.Complete sampleAttach ⟨SampleOptions.fresh, "member1"⟩
        sampleFactory () ["mypod"]).calls =
        [.FactoryForMemberCluster "member1", .Complete m () ["mypod"]] :=
  (single_target_per_invocation sampleAttach sampleAPIResources sampleAPIVersions sampleExplain
    sampleFactory ⟨SampleOptions.fresh, "member1"⟩ ⟨SampleOptions.fresh, ""⟩
    ⟨SampleOptions.fresh, ""⟩ ⟨SampleOptions.fresh, "member1"⟩ () ["mypod"]).2.2.2.2 rfl

/-! ## Help texts built with `Sprintf` -/

theorem doPrintf_text_literal (a : List String) (cs rest : List Char) (p : pp)
    (h : ∀ c ∈ cs, c ≠ '%') :
    doPrintf a .text p (cs ++ rest) = doPrintf a .text { p with buf := p.buf ++ cs } rest := by
  induction cs generalizing p with
  | nil => simp
  | cons c cs ih =>
    have hc : c ≠ '%' := h c (by simp)
    have hcs : ∀ d ∈ cs, d ≠ '%' := fun d hd => h d (by simp [hd])
    rw [List.cons_append, doPrintf, if_neg hc, ih _ hcs]
    simp

theorem doPrintf_literal (a : List String) (cs : List Char) (p : pp)
    (h : ∀ c ∈ cs, c ≠ '%') :
    doPrintf a .text p cs = some { p with buf := p.buf ++ cs } := by
  have := doPrintf_text_literal a cs [] p h
  simpa [doPrintf] using this

/-- A format without a percent sign consumes no operand: `Sprintf` returns the
format followed by the report of the unused operand. -/
theorem Sprintf_no_verb (format x : String) (h : ∀ c ∈ format.toList, c ≠ '%') :
    Sprintf format [x] = some (format ++ "%!(EXTRA string=" ++ x ++ ")") := by
  unfold Sprintf
  rw [doPrintf_literal [x] format.toList _ h]
  simp [extraString, String.ext_iff, String.intercalate, String.intercalate.go]

theorem doPrintf_indexedVerb (x : String) (rest : List Char) (p : pp) :
    doPrintf [x] .text p (indexedVerb ++ rest) =
      doPrintf [x] .text ⟨p.buf ++ x.toList, 1, true⟩ rest := by
  simp [indexedVerb, doPrintf, pp.printArg, Char.isDigit]

theorem doPrintf_intercalate (x : String) (segs : List (List Char)) :
    ∀ (seg : List Char) (p : pp), (∀ s ∈ seg :: segs, ∀ c ∈ s, c ≠ '%') →
      doPrintf [x] .text p (List.intercalate indexedVerb (seg :: segs)) =
        some ⟨p.buf ++ List.intercalate x.toList (seg :: segs),
          if segs = [] then p.argNum else 1, if segs = [] then p.reordered else true⟩ := by
  induction segs with
  | nil =>
    intro seg p h
    have hs : ∀ c ∈ seg, c ≠ '%' := h seg (by simp)
    simp [List.intercalate, List.intersperse, doPrintf_literal [x] seg p hs]
  | cons s segs ih =>
    intro seg p h
    have hs : ∀ c ∈ seg, c ≠ '%' := h seg (by simp)
    have hrest : ∀ t ∈ s :: segs, ∀ c ∈ t, c ≠ '%' := fun t ht => h t (by simp [ht])
    have e1 : List.intercalate indexedVerb (seg :: s :: segs) =
        seg ++ (indexedVerb ++ List.intercalate indexedVerb (s :: segs)) := by
      simp [List.intercalate, List.intersperse]
    have e2 : List.intercalate x.toList (seg :: s :: segs) =
        seg ++ (x.toList ++ List.intercalate x.toList (s :: segs)) := by
      simp [List.intercalate, List.intersperse]
    rw [e1, doPrintf_text_literal [x] seg _ p hs, doPrintf_indexedVerb, ih s _ hrest, e2]
    by_cases hsegs : segs = [] <;> simp [hsegs]

/-- A format made of literal pieces joined by the directive `%[1]s`, with at
least one directive, yields the pieces joined by the operand, with nothing added
or removed. -/
theorem Sprintf_indexed_template (x : String) (seg s : List Char) (segs : List (List Char))
    (h : ∀ t ∈ seg :: s :: segs, ∀ c ∈ t, c ≠ '%') :
    Sprintf (String.mk (List.intercalate indexedVerb (seg :: s :: segs))) [x] =
      some (String.mk (List.intercalate x.toList (seg :: s :: segs))) := by
  unfold Sprintf
  simp only [String.toList]
  rw [doPrintf_intercalate x (s :: segs) seg _ h]
  simp

/-- The `Example` text of api-versions on the raw template: both pieces of the
template are kept and the directive between them is replaced by the operand. -/
theorem apiversionsExample_Sprintf (parentCommand : String) :
    Sprintf apiversionsExampleLiteral [parentCommand] =
      some (String.mk ("\n\t\t# Print the supported API versions\n\t\t".toList ++
        parentCommand.toList ++ " api-versions".toList)) := by
  have e : apiversionsExampleLiteral = String.mk (List.intercalate indexedVerb
      ["\n\t\t# Print the supported API versions\n\t\t".toList, " api-versions".toList]) := by
    decide
  rw [e, Sprintf_indexed_template parentCommand _ _ [] (by decide)]
  simp [List.intercalate, List.intersperse]

/-- C10 (the code departs from the claim): the `Long` text that `NewCmdExplain`
builds is not the `explainLong` text.  `explainLong` contains no directive, so
`Sprintf` leaves the operand `parentCommand` unused and appends the report
`%!(EXTRA string=<parentCommand>)` to the text. -/
theorem explain_long_reports_unused_operand (LongDesc Examples : String → String)
    (parentCommand : String) (h : ∀ c ∈ (LongDesc explainLongLiteral).toList, c ≠ '%') :
    (NewCmdExplain LongDesc Examples parentCommand).Long =
      some (LongDesc explainLongLiteral ++ "%!(EXTRA string=" ++ parentCommand ++ ")") ∧
    (NewCmdExplain LongDesc Examples parentCommand).Long ≠
      some (LongDesc explainLongLiteral) := by
  have e : (NewCmdExplain LongDesc Examples parentCommand).Long =
      some (LongDesc explainLongLiteral ++ "%!(EXTRA string=" ++ parentCommand ++ ")") :=
    Sprintf_no_verb (LongDesc explainLongLiteral) parentCommand h
  refine ⟨e, ?_⟩
  rw [e]
  intro hh
  have h2 := congrArg String.length (Option.some.inj hh)
  simp [String.length_append] at h2
  have h3 : ("%!(EXTRA string=" : String).length = 16 := by decide
  omega

set_option maxRecDepth 100000 in
theorem explain_long_reports_unused_operand_witness :
    (NewCmdExplain id id "karmadactl").Long =
      some (explainLongLiteral ++ "%!(EXTRA string=karmadactl)") ∧
    (NewCmdExplain id id "karmadactl").Long ≠ some explainLongLiteral :=
  explain_long_reports_unused_operand id id "karmadactl" (by decide)

end Karmadactl
